import Mathlib

/-!
# Time management system: stopwatch, countdown timer and alarm evaluator

A shallow embedding of `src/main.cpp`.

* The process-wide variables guarded by the mutexes are the fields of `State`.
* Every critical section (a block under `lock_guard`) is one function on `State`.
* The worker threads are cut at their lock boundaries: reading the control flags
  is one atomic step, the branch that follows is another, so a command may be
  interleaved between the two (`System`, `Event`, `step`).
* `chrono::steady_clock` instants and durations are integers counting
  nanoseconds; the instant read by `now()` is an input of the step that reads it.
* `localtime` fields (`tm_hour`, `tm_min`, `tm_sec`) are inputs of the step that
  reads the wall clock.
* A C `int` that is computed by arithmetic which may leave the 32-bit range is
  passed through `wrapInt`.
* The two pipes are lists of pending bytes.
-/

namespace TimeSystem

/-! ## Machine integers and text formatting -/

/-- The value of a 32-bit two's-complement `int` holding `x`. -/
def wrapInt (x : Int) : Int :=
  (x + 2147483648) % 4294967296 - 2147483648

/-- Number of `steady_clock` ticks (nanoseconds) in one second. -/
def nanosPerSecond : Int := 1000000000

/-- Output of `ss << setfill('0') << setw(2) << n` for an `int`: the decimal
text of `n`, filled on the left with `'0'` up to two characters. -/
def setw2 (n : Int) : String :=
  let r := toString n
  String.mk (List.replicate (2 - r.length) '0') ++ r

/-- Output of the conversion `%02d` of `printf`: sign, then zeros up to a field
width of two, then the decimal digits. -/
def printf02d (n : Int) : String :=
  let sign := if n < 0 then "-" else ""
  let digits := toString n.natAbs
  sign ++ String.mk (List.replicate (2 - (sign.length + digits.length)) '0') ++ digits

/-- Text built by the stream code
`setw(2) << a << ":" << setw(2) << b << ":" << setw(2) << c` (stopwatch display,
alarm target time). -/
def hhmmss (a b c : Int) : String :=
  setw2 a ++ ":" ++ setw2 b ++ ":" ++ setw2 c

/-- Text built by the stream code `setw(2) << a << ":" << setw(2) << b`
(timer display). -/
def mmss (a b : Int) : String :=
  setw2 a ++ ":" ++ setw2 b

/-- The evaluator's `snprintf(currentTime, 9, "%02d:%02d:%02d", h, m, s)`
followed by `string(currentTime)`: at most eight characters fit before the
terminating zero byte. -/
def currentTimeString (h m s : Int) : String :=
  String.mk ((printf02d h ++ ":" ++ printf02d m ++ ":" ++ printf02d s).data.take 8)

/-! ## Shared state -/

/-- The global variables of `main.cpp` (sections 2 to 6 of its header). -/
structure State where
  sharedTimeStr : String
  stopwatchStr : String
  timerStr : String
  alarmStatus : String
  isRunning : Bool
  stopwatchRunning : Bool
  stopwatchPaused : Bool
  timerRunning : Bool
  timerPaused : Bool
  stopwatchHours : Int
  stopwatchMinutes : Int
  stopwatchSeconds : Int
  timerMinutes : Int
  timerSeconds : Int
  alarmRinging : Bool
  deriving DecidableEq, Repr

/-- The initial values of the global variables. -/
def initState : State where
  sharedTimeStr := "00:00:00"
  stopwatchStr := "00:00:00"
  timerStr := "00:00"
  alarmStatus := "No Alarm Set"
  isRunning := true
  stopwatchRunning := false
  stopwatchPaused := false
  timerRunning := false
  timerPaused := false
  stopwatchHours := 0
  stopwatchMinutes := 0
  stopwatchSeconds := 0
  timerMinutes := 0
  timerSeconds := 0
  alarmRinging := false

/-! ## Countdown timer worker (`timerThreadFunc`) -/

/-- The critical section of `timerThreadFunc` under `timerMutex`: decrement the
countdown and format it, or, at `00:00`, take `controlMutex`, clear
`timerRunning` and show the sentinel (the `continue` skips the formatting). -/
def timerLockedUpdate (s : State) : State :=
  if s.timerSeconds > 0 then
    let sec := s.timerSeconds - 1
    { s with timerSeconds := sec, timerStr := mmss s.timerMinutes sec }
  else if s.timerMinutes > 0 then
    let mins := s.timerMinutes - 1
    { s with timerMinutes := mins, timerSeconds := 59, timerStr := mmss mins 59 }
  else
    { s with timerRunning := false, timerStr := "TIMER DONE!" }

/-- The part of one loop iteration of `timerThreadFunc` that follows the read of
the control flags into `tmRunning` and `tmPaused`. -/
def timerIteration (tmRunning tmPaused : Bool) (s : State) : State :=
  if tmRunning && !tmPaused then timerLockedUpdate s else s

/-- One whole loop iteration of `timerThreadFunc` with no command between the
read of the flags and the update: the tick of the timer worker. -/
def timerTick (s : State) : State :=
  timerIteration s.timerRunning s.timerPaused s

/-- The body shared by the four timer key handlers (`T`, `Num1`, `Num2`,
`Num3`), which differ only in the two constants. -/
def setTimer (m sec : Int) (s : State) : State :=
  { s with timerMinutes := m, timerSeconds := sec, timerRunning := true, timerPaused := false }

/-! ## Stopwatch worker (`stopwatchThreadFunc`) -/

/-- The local `elapsed` of the running branch:
`duration_cast<chrono::seconds>(currentTime - startTime).count()`, a division
that truncates towards zero. -/
def elapsedSeconds (startTime currentTime : Int) : Int :=
  Int.tdiv (currentTime - startTime) nanosPerSecond

/-- The critical section of the running branch under `stopwatchMutex`: `elapsed`
is split into the three `int` counters and formatted. -/
def stopwatchStore (elapsed : Int) (s : State) : State :=
  let h := wrapInt (Int.tdiv elapsed 3600)
  let m := wrapInt (Int.tdiv (Int.tmod elapsed 3600) 60)
  let sec := wrapInt (Int.tmod elapsed 60)
  { s with stopwatchHours := h, stopwatchMinutes := m, stopwatchSeconds := sec,
           stopwatchStr := hhmmss h m sec }

/-- The branch `swRunning && !swPaused` of the stopwatch loop. -/
def stopwatchRunningBranch (startTime currentTime : Int) (s : State) : State :=
  stopwatchStore (elapsedSeconds startTime currentTime) s

/-- The `int totalSeconds` computed by the paused branch from the counters. -/
def totalSeconds (s : State) : Int :=
  wrapInt (s.stopwatchHours * 3600 + s.stopwatchMinutes * 60 + s.stopwatchSeconds)

/-- The branch `swPaused`: the new value of the local `startTime`,
`currentTime - chrono::seconds(totalSeconds)`. -/
def stopwatchPausedBranch (currentTime : Int) (s : State) : Int :=
  currentTime - totalSeconds s * nanosPerSecond

/-- The part of one loop iteration of `stopwatchThreadFunc` that follows the
read of the control flags into `swRunning` and `swPaused`; `currentTime` is the
instant read by `steady_clock::now()`. The result is the new value of the local
`startTime` and the new shared state. -/
def stopwatchIteration (swRunning swPaused : Bool) (currentTime : Int)
    (w : Int × State) : Int × State :=
  if swRunning && !swPaused then (w.1, stopwatchRunningBranch w.1 currentTime w.2)
  else if swPaused then (stopwatchPausedBranch currentTime w.2, w.2)
  else w

/-- One whole loop iteration of `stopwatchThreadFunc` at instant `currentTime`
with no command between the read of the flags and the branch. The pair is the
thread's local `startTime` and the shared state. -/
def stopwatchPoll (w : Int × State) (currentTime : Int) : Int × State :=
  stopwatchIteration w.2.stopwatchRunning w.2.stopwatchPaused currentTime w

/-! ## Live clock worker (`clockThreadFunc`) -/

/-- The text of the twelve-hour clock built from the `localtime` fields. -/
def clockString (hour min sec : Int) : String :=
  let h := Int.tmod hour 12
  let hour12 := if h = 0 then 12 else h
  let ampm := if hour ≥ 12 then "PM" else "AM"
  setw2 hour12 ++ ":" ++ setw2 min ++ ":" ++ setw2 sec ++ " " ++ ampm

/-- The critical section of `clockThreadFunc` under `displayMutex`. -/
def clockUpdate (hour min sec : Int) (s : State) : State :=
  { s with sharedTimeStr := clockString hour min sec }

/-! ## Commands (the key switch of `main`) -/

/-- The keys of the switch; `A` carries the `localtime` fields of
`time(nullptr) + 10` read by its handler, `Other` is the `default` case. -/
inductive Key where
  | S | P | R | T | Num1 | Num2 | Num3 | O
  | A (hour min sec : Int)
  | Escape
  | Other
  deriving DecidableEq, Repr

/-- The string `alarmTime` built by the handler of `A`. -/
def alarmTimeString (hour min sec : Int) : String :=
  hhmmss hour min sec

/-- Effect of one `KeyPressed` event on the global variables. -/
def keyPressed (k : Key) (s : State) : State :=
  match k with
  | .S =>
    if !s.stopwatchRunning then { s with stopwatchRunning := true, stopwatchPaused := false }
    else if s.stopwatchPaused then { s with stopwatchPaused := false }
    else s
  | .P =>
    if s.stopwatchRunning && !s.stopwatchPaused then { s with stopwatchPaused := true } else s
  | .R =>
    { s with stopwatchRunning := false, stopwatchPaused := false, stopwatchHours := 0,
             stopwatchMinutes := 0, stopwatchSeconds := 0, stopwatchStr := "00:00:00" }
  | .T => setTimer 0 30 s
  | .Num1 => setTimer 1 0 s
  | .Num2 => setTimer 2 0 s
  | .Num3 => setTimer 5 0 s
  | .O => { s with timerRunning := false, timerPaused := false, timerStr := "00:00" }
  | .A hour min sec =>
    { s with alarmStatus := "Alarm set for: " ++ alarmTimeString hour min sec,
             alarmRinging := false }
  | .Escape => { s with isRunning := false }
  | .Other => s

/-- A key pressed between two loop iterations of the stopwatch thread: the
handler changes the shared state and cannot reach the local `startTime`. -/
def keyBetweenPolls (k : Key) (w : Int × State) : Int × State :=
  (w.1, keyPressed k w.2)

/-- The bytes a key handler writes to the pipe towards the evaluator: the
handler of `A` writes `alarmTime.c_str()`, `alarmTime.length()` bytes. -/
def keyWrites (k : Key) : List Char :=
  match k with
  | .A hour min sec => (alarmTimeString hour min sec).data
  | _ => []

/-- The IPC check of the main loop: `readResult` is the byte delivered by
`read(pipeChildToParent[0], &buffer, 1)`, or `none` when the read returns no
byte. -/
def drainStep (readResult : Option Char) (s : State) : State :=
  match readResult with
  | some c =>
    if c = 'A' then { s with alarmStatus := "*** ALARM RINGING!!! ***", alarmRinging := true }
    else s
  | none => s

/-! ## Alarm evaluator (`runAlarmProcess`) -/

/-- The string built by `buffer[bytesRead] = 0; string newAlarm(buffer)`: the
received bytes up to the first zero byte. -/
def newAlarmOf (payload : List Char) : String :=
  String.mk (payload.takeWhile (fun c => c ≠ Char.ofNat 0))

/-- The parsing step of the evaluator for the bytes returned by one `read`
(`bytesRead = payload.length`). -/
def receiveAlarm (childAlarmTimes : List String) (payload : List Char) : List String :=
  if payload.length > 0 then
    let newAlarm := newAlarmOf payload
    if newAlarm.length = 8 then childAlarmTimes ++ [newAlarm] else childAlarmTimes
  else childAlarmTimes

/-- The matching loop `for (i = 0; i < size; i++)` from index `i` on, where
`rest` is the part of `v` from index `i`: on the first entry equal to
`currentTime` the byte `'A'` is written, the entry at index `i` is erased and
the loop is left. The result is the bytes written and the new vector. -/
def checkFrom (currentTime : String) (v : List String) :
    List String → Nat → List Char × List String
  | [], _ => ([], v)
  | a :: rest, i =>
    if a = currentTime then (['A'], v.eraseIdx i)
    else checkFrom currentTime v rest (i + 1)

/-- The matching loop of one evaluation cycle. -/
def checkAlarms (currentTime : String) (v : List String) : List Char × List String :=
  checkFrom currentTime v v 0

/-- One cycle of the evaluator loop: parse what the read returned, format the
wall clock, run the matching loop. The result is the bytes written to the pipe
towards the parent and the new list of armed alarms. -/
def alarmCycle (childAlarmTimes : List String) (payload : List Char)
    (hour min sec : Int) : List Char × List String :=
  checkAlarms (currentTimeString hour min sec) (receiveAlarm childAlarmTimes payload)

/-! ## The whole system -/

/-- Position of a worker thread in its loop: at the loop head, after the read
of the control flags, or returned. -/
inductive Pc where
  | head | body | finished
  deriving DecidableEq, Repr

/-- Local variables of `stopwatchThreadFunc`. -/
structure StopwatchThread where
  startTime : Int
  running : Bool
  swRunning : Bool
  swPaused : Bool
  pc : Pc
  deriving DecidableEq, Repr

/-- Local variables of `timerThreadFunc`. -/
structure TimerThread where
  running : Bool
  tmRunning : Bool
  tmPaused : Bool
  pc : Pc
  deriving DecidableEq, Repr

/-- The parent process with its three workers, the evaluator process and the
two pipes between them. -/
structure System where
  shared : State
  stopwatch : StopwatchThread
  timer : TimerThread
  clockRunning : Bool
  childAlarmTimes : List String
  pipeParentToChild : List Char
  pipeChildToParent : List Char
  deriving DecidableEq, Repr

/-- The system right after the threads are started; `t0` is the instant the
stopwatch thread reads into `startTime`. -/
def initSystem (t0 : Int) : System where
  shared := initState
  stopwatch := { startTime := t0, running := true, swRunning := false, swPaused := false,
                 pc := Pc.head }
  timer := { running := true, tmRunning := false, tmPaused := false, pc := Pc.head }
  clockRunning := true
  childAlarmTimes := []
  pipeParentToChild := []
  pipeChildToParent := []

/-- The atomic steps of the system. -/
inductive Event where
  | key (k : Key)
  | closed
  | drain
  | clock (hour min sec : Int)
  | stopwatch (now : Int)
  | timer
  | evaluator (hour min sec : Int)
  deriving DecidableEq, Repr

/-- One step of the stopwatch thread. -/
def stopwatchStep (now : Int) (y : System) : System :=
  match y.stopwatch.pc with
  | Pc.head =>
    if y.stopwatch.running then
      { y with stopwatch := { y.stopwatch with swRunning := y.shared.stopwatchRunning,
                                               swPaused := y.shared.stopwatchPaused,
                                               running := y.shared.isRunning,
                                               pc := Pc.body } }
    else { y with stopwatch := { y.stopwatch with pc := Pc.finished } }
  | Pc.body =>
    let r := stopwatchIteration y.stopwatch.swRunning y.stopwatch.swPaused now
      (y.stopwatch.startTime, y.shared)
    { y with shared := r.2, stopwatch := { y.stopwatch with startTime := r.1, pc := Pc.head } }
  | Pc.finished => y

/-- One step of the timer thread. -/
def timerStep (y : System) : System :=
  match y.timer.pc with
  | Pc.head =>
    if y.timer.running then
      { y with timer := { y.timer with tmRunning := y.shared.timerRunning,
                                       tmPaused := y.shared.timerPaused,
                                       running := y.shared.isRunning,
                                       pc := Pc.body } }
    else { y with timer := { y.timer with pc := Pc.finished } }
  | Pc.body =>
    { y with shared := timerIteration y.timer.tmRunning y.timer.tmPaused y.shared,
             timer := { y.timer with pc := Pc.head } }
  | Pc.finished => y

/-- One loop iteration of the clock thread. -/
def clockStep (hour min sec : Int) (y : System) : System :=
  if y.clockRunning then
    { y with shared := clockUpdate hour min sec y.shared, clockRunning := y.shared.isRunning }
  else y

/-- One cycle of the evaluator process: it reads at most 255 pending bytes. -/
def evaluatorStep (hour min sec : Int) (y : System) : System :=
  let r := alarmCycle y.childAlarmTimes (y.pipeParentToChild.take 255) hour min sec
  { y with childAlarmTimes := r.2,
           pipeParentToChild := y.pipeParentToChild.drop 255,
           pipeChildToParent := y.pipeChildToParent ++ r.1 }

/-- The IPC check of the main loop on the pipe from the evaluator. -/
def drainPipe (y : System) : System :=
  { y with shared := drainStep y.pipeChildToParent.head? y.shared,
           pipeChildToParent := y.pipeChildToParent.tail }

/-- One atomic step of the system. -/
def step (y : System) (e : Event) : System :=
  match e with
  | .key k => { y with shared := keyPressed k y.shared,
                       pipeParentToChild := y.pipeParentToChild ++ keyWrites k }
  | .closed => { y with shared := { y.shared with isRunning := false } }
  | .drain => drainPipe y
  | .clock hour min sec => clockStep hour min sec y
  | .stopwatch now => stopwatchStep now y
  | .timer => timerStep y
  | .evaluator hour min sec => evaluatorStep hour min sec y

/-- The system after a sequence of steps. -/
def run (y : System) (es : List Event) : System :=
  es.foldl step y

/-- The steps of `n` successive loop iterations of the stopwatch thread, the
first at instant `t0`, each `dt` after the one before: an iteration is the read
of the flags followed by the branch. -/
def pollEvents (t0 dt : Int) : Nat → List Event
  | 0 => []
  | n + 1 => Event.stopwatch t0 :: Event.stopwatch t0 :: pollEvents (t0 + dt) dt n

/-! ## Lock acquisitions -/

/-- The five mutexes of `main.cpp`. -/
inductive Mutex where
  | displayMutex | stopwatchMutex | timerMutex | alarmMutex | controlMutex
  deriving DecidableEq, Repr

/-- A lock operation of a code path: the construction of a `lock_guard` on a
mutex, or its destruction at the end of its scope. -/
inductive LockOp where
  | acquire (m : Mutex)
  | release (m : Mutex)
  deriving DecidableEq, Repr

/-- Lock operations of one loop iteration of `clockThreadFunc`. -/
def clockLocks : List LockOp :=
  [LockOp.acquire Mutex.displayMutex, LockOp.release Mutex.displayMutex,
   LockOp.acquire Mutex.controlMutex, LockOp.release Mutex.controlMutex]

/-- Lock operations of one loop iteration of `stopwatchThreadFunc`: the read of
the flags, then the running branch (the paused branch takes no lock). -/
def stopwatchLocks (swRunning swPaused : Bool) : List LockOp :=
  [LockOp.acquire Mutex.controlMutex, LockOp.release Mutex.controlMutex] ++
    (if swRunning && !swPaused then
      [LockOp.acquire Mutex.stopwatchMutex, LockOp.release Mutex.stopwatchMutex]
    else [])

/-- Lock operations of the critical section of `timerThreadFunc`, by the branch
`timerLockedUpdate` takes in state `s`: `timerMutex` is held throughout, and the
expiry branch constructs `ctrlLock` on `controlMutex` inside it; the `continue`
destroys `ctrlLock` and then the outer guard. -/
def timerLockedUpdateLocks (s : State) : List LockOp :=
  if s.timerSeconds > 0 then
    [LockOp.acquire Mutex.timerMutex, LockOp.release Mutex.timerMutex]
  else if s.timerMinutes > 0 then
    [LockOp.acquire Mutex.timerMutex, LockOp.release Mutex.timerMutex]
  else
    [LockOp.acquire Mutex.timerMutex, LockOp.acquire Mutex.controlMutex,
     LockOp.release Mutex.controlMutex, LockOp.release Mutex.timerMutex]

/-- Lock operations of one loop iteration of `timerThreadFunc`: the read of the
flags into `tmRunning` and `tmPaused`, then the critical section in state `s`. -/
def timerLocks (tmRunning tmPaused : Bool) (s : State) : List LockOp :=
  [LockOp.acquire Mutex.controlMutex, LockOp.release Mutex.controlMutex] ++
    (if tmRunning && !tmPaused then timerLockedUpdateLocks s else [])

/-- Lock operations of the handler of a key; guards are destroyed in the reverse
order of their construction. -/
def keyLocks (k : Key) : List LockOp :=
  match k with
  | .S => [LockOp.acquire Mutex.controlMutex, LockOp.release Mutex.controlMutex]
  | .P => [LockOp.acquire Mutex.controlMutex, LockOp.release Mutex.controlMutex]
  | .R => [LockOp.acquire Mutex.controlMutex, LockOp.acquire Mutex.stopwatchMutex,
           LockOp.release Mutex.stopwatchMutex, LockOp.release Mutex.controlMutex]
  | .T => [LockOp.acquire Mutex.controlMutex, LockOp.acquire Mutex.timerMutex,
           LockOp.release Mutex.timerMutex, LockOp.release Mutex.controlMutex]
  | .Num1 => [LockOp.acquire Mutex.controlMutex, LockOp.acquire Mutex.timerMutex,
              LockOp.release Mutex.timerMutex, LockOp.release Mutex.controlMutex]
  | .Num2 => [LockOp.acquire Mutex.controlMutex, LockOp.acquire Mutex.timerMutex,
              LockOp.release Mutex.timerMutex, LockOp.release Mutex.controlMutex]
  | .Num3 => [LockOp.acquire Mutex.controlMutex, LockOp.acquire Mutex.timerMutex,
              LockOp.release Mutex.timerMutex, LockOp.release Mutex.controlMutex]
  | .O => [LockOp.acquire Mutex.controlMutex, LockOp.acquire Mutex.timerMutex,
           LockOp.release Mutex.timerMutex, LockOp.release Mutex.controlMutex]
  | .A _ _ _ => [LockOp.acquire Mutex.alarmMutex, LockOp.release Mutex.alarmMutex]
  | .Escape => [LockOp.acquire Mutex.controlMutex, LockOp.release Mutex.controlMutex]
  | .Other => []

/-- Lock operations of the IPC check of the main loop for the result of its
`read`. -/
def drainLocks (readResult : Option Char) : List LockOp :=
  match readResult with
  | some c =>
    if c = 'A' then [LockOp.acquire Mutex.alarmMutex, LockOp.release Mutex.alarmMutex] else []
  | none => []

/-- Lock operations of the four blocks of the main loop that copy the shared
strings to the display. -/
def displayLocks : List LockOp :=
  [LockOp.acquire Mutex.displayMutex, LockOp.release Mutex.displayMutex,
   LockOp.acquire Mutex.stopwatchMutex, LockOp.release Mutex.stopwatchMutex,
   LockOp.acquire Mutex.timerMutex, LockOp.release Mutex.timerMutex,
   LockOp.acquire Mutex.alarmMutex, LockOp.release Mutex.alarmMutex]

/-- The code paths of the workers and of the command layer that take a lock;
the `Closed` handler takes none. -/
inductive CodePath where
  | clockIteration
  | stopwatchIteration (swRunning swPaused : Bool)
  | timerIteration (tmRunning tmPaused : Bool) (s : State)
  | keyHandler (k : Key)
  | ipcCheck (readResult : Option Char)
  | displayRead
  deriving DecidableEq, Repr

/-- The lock operations of a code path, in program order. -/
def locksOf (p : CodePath) : List LockOp :=
  match p with
  | .clockIteration => clockLocks
  | .stopwatchIteration swRunning swPaused => stopwatchLocks swRunning swPaused
  | .timerIteration tmRunning tmPaused s => timerLocks tmRunning tmPaused s
  | .keyHandler k => keyLocks k
  | .ipcCheck readResult => drainLocks readResult
  | .displayRead => displayLocks

/-- The nested acquisitions of a sequence of lock operations run with the
mutexes `held` already held: the pairs (mutex held, mutex acquired). -/
def nestedAcquisitions (held : List Mutex) : List LockOp → List (Mutex × Mutex)
  | [] => []
  | LockOp.acquire m :: rest =>
    held.map (fun h => (h, m)) ++ nestedAcquisitions (m :: held) rest
  | LockOp.release m :: rest => nestedAcquisitions (held.erase m) rest

/-- Whether a nested acquisition takes `controlMutex` while a data lock
(`stopwatchMutex` or `timerMutex`) is held. -/
def controlInsideData (p : Mutex × Mutex) : Bool :=
  p.2 = Mutex.controlMutex && (p.1 = Mutex.stopwatchMutex || p.1 = Mutex.timerMutex)

/-- Two threads, the timer worker and the main thread, each with the lock
operations it still has to run and the mutexes it holds. -/
structure LockState where
  workerRest : List LockOp
  workerHeld : List Mutex
  mainRest : List LockOp
  mainHeld : List Mutex
  deriving DecidableEq, Repr

/-- Whether a thread can run its next lock operation: a release always, an
acquisition when the other thread does not hold the mutex. -/
def canRun (rest : List LockOp) (otherHeld : List Mutex) : Bool :=
  match rest with
  | [] => false
  | LockOp.acquire m :: _ => !otherHeld.contains m
  | LockOp.release _ :: _ => true

/-- The scheduler lets the worker (`true`) or the main thread (`false`) run its
next lock operation; a thread that cannot run stays blocked. -/
def lockStep (y : LockState) (worker : Bool) : LockState :=
  if worker then
    if canRun y.workerRest y.mainHeld then
      match y.workerRest with
      | [] => y
      | LockOp.acquire m :: rest => { y with workerRest := rest, workerHeld := m :: y.workerHeld }
      | LockOp.release m :: rest =>
        { y with workerRest := rest, workerHeld := y.workerHeld.erase m }
    else y
  else
    if canRun y.mainRest y.workerHeld then
      match y.mainRest with
      | [] => y
      | LockOp.acquire m :: rest => { y with mainRest := rest, mainHeld := m :: y.mainHeld }
      | LockOp.release m :: rest => { y with mainRest := rest, mainHeld := y.mainHeld.erase m }
    else y

/-- The two threads after a schedule. -/
def lockRun (y : LockState) (schedule : List Bool) : LockState :=
  schedule.foldl lockStep y

/-- Both threads still have lock operations to run and neither can run. -/
def deadlocked (y : LockState) : Bool :=
  !y.workerRest.isEmpty && !y.mainRest.isEmpty &&
    !canRun y.workerRest y.mainHeld && !canRun y.mainRest y.workerHeld

/-! ## Machine integers and two-digit formatting -/

/-- An integer in the range of `int` is its own 32-bit value. -/
theorem wrapInt_of_range (x : Int) (h0 : -2147483648 ≤ x) (h1 : x < 2147483648) :
    wrapInt x = x := by
  unfold wrapInt
  omega

/-- The stream formatter on a number below 100: its two decimal digits. -/
theorem setw2_two_digits (n : Nat) (hn : n < 100) :
    setw2 (n : Int) = String.mk [Nat.digitChar (n / 10), Nat.digitChar (n % 10)] :=
  (by decide : ∀ k : Fin 100,
    setw2 ((k.val : Nat) : Int)
      = String.mk [Nat.digitChar (k.val / 10), Nat.digitChar (k.val % 10)]) ⟨n, hn⟩

/-- The conversion `%02d` on a number below 100: its two decimal digits. -/
theorem printf02d_two_digits (n : Nat) (hn : n < 100) :
    printf02d (n : Int) = String.mk [Nat.digitChar (n / 10), Nat.digitChar (n % 10)] :=
  (by decide : ∀ k : Fin 100,
    printf02d ((k.val : Nat) : Int)
      = String.mk [Nat.digitChar (k.val / 10), Nat.digitChar (k.val % 10)]) ⟨n, hn⟩

/-- Distinct decimal digits have distinct characters. -/
theorem digitChar_injective (a b : Nat) (ha : a < 10) (hb : b < 10)
    (h : Nat.digitChar a = Nat.digitChar b) : a = b := by
  have key : ∀ x y : Fin 10, Nat.digitChar x.val = Nat.digitChar y.val → x = y := by decide
  exact congrArg Fin.val (key ⟨a, ha⟩ ⟨b, hb⟩ h)

/-- A decimal digit is never the zero byte. -/
theorem digitChar_ne_zero_byte (a : Nat) (ha : a < 10) :
    Nat.digitChar a ≠ Char.ofNat 0 :=
  (by decide : ∀ x : Fin 10, Nat.digitChar x.val ≠ Char.ofNat 0) ⟨a, ha⟩

/-- The stream formatter on three numbers below 100. -/
theorem hhmmss_digits (a b c : Nat) (ha : a < 100) (hb : b < 100) (hc : c < 100) :
    hhmmss a b c = String.mk [Nat.digitChar (a / 10), Nat.digitChar (a % 10), ':',
      Nat.digitChar (b / 10), Nat.digitChar (b % 10), ':',
      Nat.digitChar (c / 10), Nat.digitChar (c % 10)] := by
  unfold hhmmss
  rw [setw2_two_digits a ha, setw2_two_digits b hb, setw2_two_digits c hc]
  rfl

/-- The `snprintf` formatter on three numbers below 100. -/
theorem currentTimeString_digits (a b c : Nat) (ha : a < 100) (hb : b < 100) (hc : c < 100) :
    currentTimeString a b c = String.mk [Nat.digitChar (a / 10), Nat.digitChar (a % 10), ':',
      Nat.digitChar (b / 10), Nat.digitChar (b % 10), ':',
      Nat.digitChar (c / 10), Nat.digitChar (c % 10)] := by
  unfold currentTimeString
  rw [printf02d_two_digits a ha, printf02d_two_digits b hb, printf02d_two_digits c hc]
  rfl

/-- Two numbers below 100 with the same two decimal digits are equal. -/
theorem two_digits_injective (a b : Nat) (ha : a < 100) (hb : b < 100)
    (h1 : Nat.digitChar (a / 10) = Nat.digitChar (b / 10))
    (h2 : Nat.digitChar (a % 10) = Nat.digitChar (b % 10)) : a = b := by
  have e1 := digitChar_injective (a / 10) (b / 10) (by omega) (by omega) h1
  have e2 := digitChar_injective (a % 10) (b % 10) (by omega) (by omega) h2
  omega

/-- The timer display for less than 100 minutes and less than 100 seconds. -/
theorem mmss_digits (a b : Nat) (ha : a < 100) (hb : b < 100) :
    mmss a b = String.mk [Nat.digitChar (a / 10), Nat.digitChar (a % 10), ':',
      Nat.digitChar (b / 10), Nat.digitChar (b % 10)] := by
  unfold mmss
  rw [setw2_two_digits a ha, setw2_two_digits b hb]
  rfl

/-! ## Countdown: the timer worker after `SetTimer` -/

/-- A tick on an active, unpaused timer with time left is a decrement by one
second that keeps the timer active and shows the time left. -/
theorem timerTick_decrement (s : State) (r : Int)
    (hrun : s.timerRunning = true) (hp : s.timerPaused = false)
    (hm : 0 ≤ s.timerMinutes) (hs0 : 0 ≤ s.timerSeconds) (hs : s.timerSeconds ≤ 59)
    (hr : 60 * s.timerMinutes + s.timerSeconds = r) (hpos : 0 < r) :
    (timerTick s).timerRunning = true ∧ (timerTick s).timerPaused = false ∧
    0 ≤ (timerTick s).timerMinutes ∧ 0 ≤ (timerTick s).timerSeconds ∧
    (timerTick s).timerSeconds ≤ 59 ∧
    60 * (timerTick s).timerMinutes + (timerTick s).timerSeconds = r - 1 ∧
    (timerTick s).timerStr = mmss (timerTick s).timerMinutes (timerTick s).timerSeconds := by
  unfold timerTick timerIteration timerLockedUpdate
  simp only [hrun, hp, Bool.not_false, Bool.and_self, if_true]
  by_cases h1 : s.timerSeconds > 0
  · simp only [h1, if_true, hrun, hp]
    refine ⟨trivial, trivial, hm, ?_, ?_, ?_, trivial⟩ <;> omega
  · have h2 : s.timerMinutes > 0 := by omega
    simp only [h1, h2, if_true, if_false, hrun, hp]
    refine ⟨trivial, trivial, ?_, ?_, ?_, ?_, trivial⟩ <;> omega

/-- A tick on an active, unpaused timer at `00:00` is the expiry. -/
theorem timerTick_expiry (s : State)
    (hrun : s.timerRunning = true) (hp : s.timerPaused = false)
    (hm : s.timerMinutes = 0) (hs : s.timerSeconds = 0) :
    timerTick s = { s with timerRunning := false, timerStr := "TIMER DONE!" } := by
  unfold timerTick timerIteration timerLockedUpdate
  simp [hrun, hp, hm, hs]

/-- A tick on an inactive timer changes nothing. -/
theorem timerTick_inactive (s : State) (hrun : s.timerRunning = false) :
    timerTick s = s := by
  unfold timerTick timerIteration
  simp [hrun]

/-- Any number of ticks on an inactive timer changes nothing. -/
theorem timerTick_iterate_inactive (s : State) (hrun : s.timerRunning = false) (j : Nat) :
    timerTick^[j] s = s := by
  induction j with
  | zero => rfl
  | succ j ih => rw [Function.iterate_succ_apply, timerTick_inactive s hrun, ih]

/-- State of an active countdown after `k` ticks, as long as `k` does not exceed
the seconds left. -/
theorem timerTick_iterate (k : Nat) : ∀ (s : State) (r : Int),
    s.timerRunning = true → s.timerPaused = false →
    0 ≤ s.timerMinutes → 0 ≤ s.timerSeconds → s.timerSeconds ≤ 59 →
    60 * s.timerMinutes + s.timerSeconds = r → (k : Int) ≤ r →
    (timerTick^[k] s).timerRunning = true ∧ (timerTick^[k] s).timerPaused = false ∧
    0 ≤ (timerTick^[k] s).timerMinutes ∧ 0 ≤ (timerTick^[k] s).timerSeconds ∧
    (timerTick^[k] s).timerSeconds ≤ 59 ∧
    60 * (timerTick^[k] s).timerMinutes + (timerTick^[k] s).timerSeconds = r - k ∧
    (1 ≤ k → (timerTick^[k] s).timerStr
      = mmss (timerTick^[k] s).timerMinutes (timerTick^[k] s).timerSeconds) := by
  induction k with
  | zero =>
    intro s r hrun hp hm hs0 hs hr _
    refine ⟨hrun, hp, hm, hs0, hs, ?_, ?_⟩
    · simpa using hr
    · intro h; omega
  | succ k ih =>
    intro s r hrun hp hm hs0 hs hr hk
    have hk1 : (k : Int) ≤ r := by push_cast at hk; omega
    obtain ⟨a1, a2, a3, a4, a5, a6, _⟩ := ih s r hrun hp hm hs0 hs hr hk1
    have hpos : 0 < r - k := by push_cast at hk; omega
    obtain ⟨b1, b2, b3, b4, b5, b6, b7⟩ :=
      timerTick_decrement (timerTick^[k] s) (r - k) a1 a2 a3 a4 a5 a6 hpos
    rw [Function.iterate_succ_apply']
    refine ⟨b1, b2, b3, b4, b5, ?_, fun _ => b7⟩
    push_cast
    omega

/-- C1. After `SetTimer(m, s)` with `m ≥ 0`, `0 ≤ s ≤ 59` and `d = 60 m + s > 0`,
each of the first `d` ticks of the timer worker is a decrement: after tick `k`
the timer is still active and unpaused, `d - k` seconds are left and the display
is the `MM:SS` of the time left, minutes and seconds zero-padded to two digits
(exactly two digits each below 100 minutes). Tick `d + 1` is the expiry: the
counters stay at zero, `timerRunning` becomes false and the display becomes
`TIMER DONE!`. Every later tick changes nothing. -/
theorem timer_counts_down_then_expires (st : State) (m sec : Int)
    (hm : 0 ≤ m) (hs0 : 0 ≤ sec) (hs : sec ≤ 59) (hd : 0 < 60 * m + sec) :
    (∀ k : Nat, 1 ≤ k → k ≤ (60 * m + sec).toNat →
      (timerTick^[k] (setTimer m sec st)).timerRunning = true ∧
      (timerTick^[k] (setTimer m sec st)).timerPaused = false ∧
      (timerTick^[k] (setTimer m sec st)).timerMinutes = (60 * m + sec - k) / 60 ∧
      (timerTick^[k] (setTimer m sec st)).timerSeconds = (60 * m + sec - k) % 60 ∧
      (timerTick^[k] (setTimer m sec st)).timerStr
        = mmss ((60 * m + sec - k) / 60) ((60 * m + sec - k) % 60) ∧
      (60 * m + sec - k < 6000 →
        (timerTick^[k] (setTimer m sec st)).timerStr
          = String.mk [Nat.digitChar ((60 * m + sec - k).toNat / 60 / 10),
              Nat.digitChar ((60 * m + sec - k).toNat / 60 % 10), ':',
              Nat.digitChar ((60 * m + sec - k).toNat % 60 / 10),
              Nat.digitChar ((60 * m + sec - k).toNat % 60 % 10)])) ∧
    ((timerTick^[(60 * m + sec).toNat + 1] (setTimer m sec st)).timerRunning = false ∧
      (timerTick^[(60 * m + sec).toNat + 1] (setTimer m sec st)).timerStr = "TIMER DONE!" ∧
      (timerTick^[(60 * m + sec).toNat + 1] (setTimer m sec st)).timerMinutes = 0 ∧
      (timerTick^[(60 * m + sec).toNat + 1] (setTimer m sec st)).timerSeconds = 0) ∧
    (∀ j : Nat, timerTick^[(60 * m + sec).toNat + 1 + j] (setTimer m sec st)
      = timerTick^[(60 * m + sec).toNat + 1] (setTimer m sec st)) := by
  have key : ∀ k : Nat, (k : Int) ≤ 60 * m + sec →
      (timerTick^[k] (setTimer m sec st)).timerRunning = true ∧
      (timerTick^[k] (setTimer m sec st)).timerPaused = false ∧
      0 ≤ (timerTick^[k] (setTimer m sec st)).timerMinutes ∧
      0 ≤ (timerTick^[k] (setTimer m sec st)).timerSeconds ∧
      (timerTick^[k] (setTimer m sec st)).timerSeconds ≤ 59 ∧
      60 * (timerTick^[k] (setTimer m sec st)).timerMinutes
        + (timerTick^[k] (setTimer m sec st)).timerSeconds = 60 * m + sec - k ∧
      (1 ≤ k → (timerTick^[k] (setTimer m sec st)).timerStr
        = mmss (timerTick^[k] (setTimer m sec st)).timerMinutes
            (timerTick^[k] (setTimer m sec st)).timerSeconds) :=
    fun k hk => timerTick_iterate k (setTimer m sec st) (60 * m + sec) rfl rfl hm hs0 hs rfl hk
  have hexp : timerTick^[(60 * m + sec).toNat + 1] (setTimer m sec st)
      = { timerTick^[(60 * m + sec).toNat] (setTimer m sec st) with
          timerRunning := false, timerStr := "TIMER DONE!" } := by
    obtain ⟨a1, a2, a3, a4, a5, a6, _⟩ := key (60 * m + sec).toNat (by omega)
    rw [Function.iterate_succ_apply']
    exact timerTick_expiry _ a1 a2 (by omega) (by omega)
  refine ⟨?_, ?_, ?_⟩
  · intro k hk1 hk
    obtain ⟨a1, a2, a3, a4, a5, a6, a7⟩ := key k (by omega)
    have e1 : (timerTick^[k] (setTimer m sec st)).timerMinutes = (60 * m + sec - k) / 60 := by
      omega
    have e2 : (timerTick^[k] (setTimer m sec st)).timerSeconds = (60 * m + sec - k) % 60 := by
      omega
    have e3 : (timerTick^[k] (setTimer m sec st)).timerStr
        = mmss ((60 * m + sec - k) / 60) ((60 * m + sec - k) % 60) := by
      rw [a7 hk1, e1, e2]
    refine ⟨a1, a2, e1, e2, e3, ?_⟩
    intro hlt
    obtain ⟨r, hr⟩ := Int.eq_ofNat_of_zero_le (show 0 ≤ 60 * m + sec - k by omega)
    rw [e3, hr]
    have q1 : ((r : Int)) / 60 = ((r / 60 : Nat) : Int) := by omega
    have q2 : ((r : Int)) % 60 = ((r % 60 : Nat) : Int) := by omega
    rw [q1, q2, mmss_digits (r / 60) (r % 60) (by omega) (by omega)]
    simp only [Int.toNat_ofNat]
  · obtain ⟨a1, a2, a3, a4, a5, a6, _⟩ := key (60 * m + sec).toNat (by omega)
    rw [hexp]
    refine ⟨rfl, rfl, ?_, ?_⟩
    · show (timerTick^[(60 * m + sec).toNat] (setTimer m sec st)).timerMinutes = 0
      omega
    · show (timerTick^[(60 * m + sec).toNat] (setTimer m sec st)).timerSeconds = 0
      omega
  · intro j
    rw [Nat.add_comm _ j, Function.iterate_add_apply]
    exact timerTick_iterate_inactive _ (by rw [hexp]) j

/-- Witness of C1: `SetTimer(0, 30)` on the initial state followed by 31 ticks
ends with the display `TIMER DONE!` and an inactive timer. -/
theorem timer_counts_down_then_expires_witness :
    (0 : Int) ≤ 0 ∧ (0 : Int) ≤ 30 ∧ (30 : Int) ≤ 59 ∧ (0 : Int) < 60 * 0 + 30 ∧
    (timerTick^[31] (setTimer 0 30 initState)).timerRunning = false ∧
    (timerTick^[31] (setTimer 0 30 initState)).timerStr = "TIMER DONE!" ∧
    (timerTick^[30] (setTimer 0 30 initState)).timerStr = "00:00" ∧
    (timerTick^[1] (setTimer 0 30 initState)).timerStr = "00:29" :=
  have h := timer_counts_down_then_expires initState 0 30 (by decide) (by decide) (by decide)
    (by decide)
  ⟨by decide, by decide, by decide, by decide, h.2.1.1, h.2.1.2.1,
    (h.1 30 (by decide) (by decide)).2.2.2.2.1, (h.1 1 (by decide) (by decide)).2.2.2.2.1⟩

/-! ## Stopwatch: start, pause and resume -/

/-- C2. The scenario of the claim on the code, with the worker thread started at
instant 0 and polling every 100 ms. When `StartResumeStopwatch` is issued at the
start of the thread, running 5 s, pausing 5 s and running 5 s more shows
`00:00:10`. When it is issued 7 s after the start of the thread, the first poll
already shows `00:00:07` and the same scenario ends at `00:00:17`. After 5 s of
running and a `ResetStopwatch`, a start 3 s later shows `00:00:08` at its first
poll and the scenario ends at `00:00:18`: the stopped stopwatch never moves the
reference instant `startTime`. -/
theorem stopwatch_late_start_counts_idle_time :
    (run (initSystem 0)
      ([Event.key Key.S] ++ pollEvents 0 100000000 51 ++
       [Event.key Key.P] ++ pollEvents 5100000000 100000000 50 ++
       [Event.key Key.S] ++ pollEvents 10100000000 100000000 50)).shared.stopwatchStr
      = "00:00:10" ∧
    (run (initSystem 0)
      (pollEvents 0 100000000 70 ++
       [Event.key Key.S] ++ pollEvents 7000000000 100000000 1)).shared.stopwatchStr
      = "00:00:07" ∧
    (run (initSystem 0)
      (pollEvents 0 100000000 70 ++
       [Event.key Key.S] ++ pollEvents 7000000000 100000000 51 ++
       [Event.key Key.P] ++ pollEvents 12100000000 100000000 50 ++
       [Event.key Key.S] ++ pollEvents 17100000000 100000000 50)).shared.stopwatchStr
      = "00:00:17" ∧
    (run (initSystem 0)
      ([Event.key Key.S] ++ pollEvents 0 100000000 51 ++
       [Event.key Key.R] ++ pollEvents 5100000000 100000000 30 ++
       [Event.key Key.S] ++ pollEvents 8100000000 100000000 1)).shared.stopwatchStr
      = "00:00:08" ∧
    (run (initSystem 0)
      ([Event.key Key.S] ++ pollEvents 0 100000000 51 ++
       [Event.key Key.R] ++ pollEvents 5100000000 100000000 30 ++
       [Event.key Key.S] ++ pollEvents 8100000000 100000000 50 ++
       [Event.key Key.P] ++ pollEvents 13100000000 100000000 50 ++
       [Event.key Key.S] ++ pollEvents 18100000000 100000000 50)).shared.stopwatchStr
      = "00:00:18" := by
  set_option maxRecDepth 100000 in
  decide

/-- The counters the running branch stores for an elapsed time `e` in the range
of `int`. -/
theorem stopwatchStore_counters (e : Int) (he0 : 0 ≤ e) (he : e < 2147483648) (s : State) :
    (stopwatchStore e s).stopwatchHours = e / 3600 ∧
    (stopwatchStore e s).stopwatchMinutes = e % 3600 / 60 ∧
    (stopwatchStore e s).stopwatchSeconds = e % 60 := by
  have h1 : Int.tdiv e 3600 = e / 3600 := Int.tdiv_eq_ediv he0 (by decide)
  have h2 : Int.tmod e 3600 = e % 3600 := Int.tmod_eq_emod he0 (by decide)
  have h3 : Int.tmod e 60 = e % 60 := Int.tmod_eq_emod he0 (by decide)
  have h4 : Int.tdiv (e % 3600) 60 = e % 3600 / 60 :=
    Int.tdiv_eq_ediv (by omega) (by decide)
  simp only [stopwatchStore, h1, h2, h3, h4]
  refine ⟨?_, ?_, ?_⟩ <;> apply wrapInt_of_range <;> omega

/-- The paused branch recomputes the elapsed time from its three counters. -/
theorem totalSeconds_of_counters (s : State) (e : Int) (he0 : 0 ≤ e) (he : e < 2147483648)
    (hh : s.stopwatchHours = e / 3600) (hmin : s.stopwatchMinutes = e % 3600 / 60)
    (hsec : s.stopwatchSeconds = e % 60) :
    totalSeconds s = e := by
  unfold totalSeconds
  rw [hh, hmin, hsec]
  have h : e / 3600 * 3600 + e % 3600 / 60 * 60 + e % 60 = e := by omega
  rw [h]
  exact wrapInt_of_range e (by omega) he

/-- A poll of a paused stopwatch moves only the reference instant. -/
theorem stopwatchPoll_paused (s : State) (startTime t : Int)
    (hp : s.stopwatchPaused = true) :
    stopwatchPoll (startTime, s) t = (t - totalSeconds s * nanosPerSecond, s) := by
  simp [stopwatchPoll, stopwatchIteration, stopwatchPausedBranch, hp]

/-- After any number of polls of a paused stopwatch, the reference instant is
the one set by the last poll. -/
theorem stopwatchPoll_paused_foldl (s : State) (hp : s.stopwatchPaused = true)
    (ts : List Int) : ∀ (startTime tN : Int),
    (ts ++ [tN]).foldl stopwatchPoll (startTime, s)
      = (tN - totalSeconds s * nanosPerSecond, s) := by
  induction ts with
  | nil =>
    intro startTime tN
    simp [stopwatchPoll_paused s startTime tN hp]
  | cons t ts ih =>
    intro startTime tN
    simp only [List.cons_append, List.foldl_cons]
    rw [stopwatchPoll_paused s startTime t hp]
    exact ih _ tN

/-- A poll right after a resume takes the running branch. -/
theorem stopwatchPoll_resumed (s : State) (startTime t : Int)
    (hp : s.stopwatchPaused = true) :
    stopwatchPoll (startTime, keyPressed Key.S s) t
      = (startTime, stopwatchStore (elapsedSeconds startTime t) (keyPressed Key.S s)) := by
  by_cases hr : s.stopwatchRunning = true
  · simp [stopwatchPoll, stopwatchIteration, stopwatchRunningBranch, keyPressed, hp, hr]
  · simp [stopwatchPoll, stopwatchIteration, stopwatchRunningBranch, keyPressed, hr]

/-- Elapsed seconds read `u` nanoseconds after a poll that set the reference
instant to `tN` minus `e` seconds. -/
theorem elapsedSeconds_after_rebase (tN e u : Int) (he0 : 0 ≤ e) (hu : 0 ≤ u) :
    elapsedSeconds (tN - e * nanosPerSecond) (tN + u) = e + u / nanosPerSecond := by
  unfold elapsedSeconds nanosPerSecond
  have h : tN + u - (tN - e * 1000000000) = u + e * 1000000000 := by ring
  rw [h, Int.tdiv_eq_ediv (by omega) (by decide)]
  omega

/-- A poll of a running, unpaused stopwatch stores the seconds elapsed since the
reference instant. -/
theorem stopwatchPoll_running (s : State) (startTime t : Int)
    (hr : s.stopwatchRunning = true) (hp : s.stopwatchPaused = false) :
    stopwatchPoll (startTime, s) t
      = (startTime, stopwatchStore (elapsedSeconds startTime t) s) := by
  simp [stopwatchPoll, stopwatchIteration, stopwatchRunningBranch, hr, hp]

/-- After any number of polls of a running, unpaused stopwatch the shared state
is the one stored by the last poll; the reference instant never moves. -/
theorem stopwatchPoll_running_foldl (ts : List Int) : ∀ (s : State) (startTime tN : Int),
    s.stopwatchRunning = true → s.stopwatchPaused = false →
    (ts ++ [tN]).foldl stopwatchPoll (startTime, s)
      = (startTime, stopwatchStore (elapsedSeconds startTime tN) s) := by
  induction ts with
  | nil =>
    intro s startTime tN hr hp
    simp [stopwatchPoll_running s startTime tN hr hp]
  | cons t ts ih =>
    intro s startTime tN hr hp
    simp only [List.cons_append, List.foldl_cons]
    rw [stopwatchPoll_running s startTime t hr hp]
    exact ih (stopwatchStore (elapsedSeconds startTime t) s) startTime tN hr hp

/-- Polls of a stopped stopwatch change nothing: the reference instant stays
where it was. -/
theorem stopwatchPoll_stopped_foldl (ts : List Int) (s : State) (startTime : Int)
    (hr : s.stopwatchRunning = false) (hp : s.stopwatchPaused = false) :
    ts.foldl stopwatchPoll (startTime, s) = (startTime, s) := by
  induction ts with
  | nil => rfl
  | cons t ts ih =>
    simp only [List.foldl_cons]
    have h : stopwatchPoll (startTime, s) t = (startTime, s) := by
      simp [stopwatchPoll, stopwatchIteration, hr, hp]
    rw [h]
    exact ih

/-- The start, pause, resume scenario in general. The thread has the reference
instant `startTime`; the stopwatch is stopped and is polled at the instants
`idle`; `S` is pressed and the last running poll is at `t1`; `P` is pressed and
the last paused poll is at `t2`; `S` is pressed and the last running poll is at
`t3`. The stopwatch then shows the whole seconds from `startTime` to `t1` plus
the whole seconds from `t2` to `t3`: the time between `startTime` and the first
`S` is counted as running time. -/
theorem stopwatch_scenario_elapsed (s : State) (startTime : Int)
    (hr : s.stopwatchRunning = false) (hp : s.stopwatchPaused = false)
    (idle run1 pause run2 : List Int) (t1 t2 t3 : Int)
    (h1 : startTime ≤ t1) (h1b : (t1 - startTime) / nanosPerSecond < 2147483648)
    (h3 : t2 ≤ t3) :
    (run2 ++ [t3]).foldl stopwatchPoll
      (keyBetweenPolls Key.S ((pause ++ [t2]).foldl stopwatchPoll
        (keyBetweenPolls Key.P ((run1 ++ [t1]).foldl stopwatchPoll
          (keyBetweenPolls Key.S (idle.foldl stopwatchPoll (startTime, s)))))))
      = (t2 - (t1 - startTime) / nanosPerSecond * nanosPerSecond,
         stopwatchStore ((t1 - startTime) / nanosPerSecond + (t3 - t2) / nanosPerSecond)
           (keyPressed Key.S s)) := by
  have he0 : 0 ≤ (t1 - startTime) / nanosPerSecond := by
    unfold nanosPerSecond; omega
  have hel : elapsedSeconds startTime t1 = (t1 - startTime) / nanosPerSecond := by
    unfold elapsedSeconds
    exact Int.tdiv_eq_ediv (by omega) (by decide)
  simp only [keyBetweenPolls]
  rw [stopwatchPoll_stopped_foldl idle s startTime hr hp]
  have hS : (keyPressed Key.S s).stopwatchRunning = true ∧
      (keyPressed Key.S s).stopwatchPaused = false := by
    simp [keyPressed, hr]
  rw [stopwatchPoll_running_foldl run1 (keyPressed Key.S s) startTime t1 hS.1 hS.2, hel]
  have hP : keyPressed Key.P
      (stopwatchStore ((t1 - startTime) / nanosPerSecond) (keyPressed Key.S s))
      = { stopwatchStore ((t1 - startTime) / nanosPerSecond) (keyPressed Key.S s) with
          stopwatchPaused := true } := by
    simp [keyPressed, stopwatchStore, hr]
  have hcnt := stopwatchStore_counters ((t1 - startTime) / nanosPerSecond) he0 h1b
    (keyPressed Key.S s)
  have htot : totalSeconds (keyPressed Key.P
      (stopwatchStore ((t1 - startTime) / nanosPerSecond) (keyPressed Key.S s)))
      = (t1 - startTime) / nanosPerSecond := by
    rw [hP]
    exact totalSeconds_of_counters _ _ he0 h1b hcnt.1 hcnt.2.1 hcnt.2.2
  have hPp : (keyPressed Key.P
      (stopwatchStore ((t1 - startTime) / nanosPerSecond) (keyPressed Key.S s))).stopwatchPaused
      = true := by
    rw [hP]
  rw [stopwatchPoll_paused_foldl _ hPp pause startTime t2, htot]
  have hSP : keyPressed Key.S (keyPressed Key.P
      (stopwatchStore ((t1 - startTime) / nanosPerSecond) (keyPressed Key.S s)))
      = stopwatchStore ((t1 - startTime) / nanosPerSecond) (keyPressed Key.S s) := by
    simp [keyPressed, stopwatchStore, hr]
  rw [hSP]
  dsimp only
  rw [stopwatchPoll_running_foldl run2
    (stopwatchStore ((t1 - startTime) / nanosPerSecond) (keyPressed Key.S s)) _ t3 hS.1 hS.2]
  have hel2 := elapsedSeconds_after_rebase t2 ((t1 - startTime) / nanosPerSecond) (t3 - t2)
    he0 (by omega)
  have ht : t2 + (t3 - t2) = t3 := by ring
  rw [ht] at hel2
  rw [hel2]
  rfl

/-- Elapsed seconds read at an instant `t` not before a poll that set the
reference instant to `tN` minus `e` seconds. -/
theorem elapsedSeconds_since_rebase (tN e t : Int) (he0 : 0 ≤ e) (ht : tN ≤ t) :
    elapsedSeconds (tN - e * nanosPerSecond) t = e + (t - tN) / nanosPerSecond := by
  have h := elapsedSeconds_after_rebase tN e (t - tN) he0 (by omega)
  have h2 : tN + (t - tN) = t := by ring
  rw [h2] at h
  exact h

/-- C3 (amended). For every elapsed value `e` with `0 ≤ e < 2^31` (the range of
the `int` in which `totalSeconds` is computed) that the running branch has
stored as `(e / 3600, e % 3600 / 60, e % 60)`: the running branch stores exactly
these counters for `e`; each paused poll recomputes `totalSeconds = e` and sets
the reference instant to `now - e` seconds, leaving the shared state unchanged;
after any number of paused polls, the last at instant `tN`, the reference
instant is `tN - e` seconds whatever the earlier polls and the earlier reference
instant were. For a resume at an instant `tResume` less than one second after
`tN`, the elapsed seconds computed at the moment of resume are `e`. A poll at an
instant `t` after the resume stores `e` plus the whole seconds since `tN`, that
is, of the unpaused time `t - tResume` plus the paused time `tResume - tN`:
this is `e` plus the whole seconds of the unpaused time, or one second more. -/
theorem paused_polls_preserve_elapsed (s : State) (startTime e : Int)
    (he0 : 0 ≤ e) (he : e < 2147483648) (hp : s.stopwatchPaused = true)
    (hh : s.stopwatchHours = e / 3600) (hmin : s.stopwatchMinutes = e % 3600 / 60)
    (hsec : s.stopwatchSeconds = e % 60)
    (ts : List Int) (tN tResume t : Int)
    (hres0 : tN ≤ tResume) (hres1 : tResume - tN < nanosPerSecond) (ht : tResume ≤ t) :
    ((stopwatchStore e s).stopwatchHours = e / 3600 ∧
      (stopwatchStore e s).stopwatchMinutes = e % 3600 / 60 ∧
      (stopwatchStore e s).stopwatchSeconds = e % 60) ∧
    totalSeconds s = e ∧
    (∀ now : Int, stopwatchPoll (startTime, s) now = (now - e * nanosPerSecond, s)) ∧
    (ts ++ [tN]).foldl stopwatchPoll (startTime, s) = (tN - e * nanosPerSecond, s) ∧
    elapsedSeconds ((ts ++ [tN]).foldl stopwatchPoll (startTime, s)).1 tResume = e ∧
    stopwatchPoll
        (keyBetweenPolls Key.S ((ts ++ [tN]).foldl stopwatchPoll (startTime, s))) t
      = (tN - e * nanosPerSecond,
         stopwatchStore (e + ((t - tResume) + (tResume - tN)) / nanosPerSecond)
           (keyPressed Key.S s)) ∧
    e + (t - tResume) / nanosPerSecond
      ≤ e + ((t - tResume) + (tResume - tN)) / nanosPerSecond ∧
    e + ((t - tResume) + (tResume - tN)) / nanosPerSecond
      ≤ e + (t - tResume) / nanosPerSecond + 1 := by
  have htot := totalSeconds_of_counters s e he0 he hh hmin hsec
  have hfold : (ts ++ [tN]).foldl stopwatchPoll (startTime, s)
      = (tN - e * nanosPerSecond, s) := by
    rw [stopwatchPoll_paused_foldl s hp ts startTime tN, htot]
  have hsum : (t - tResume) + (tResume - tN) = t - tN := by ring
  refine ⟨stopwatchStore_counters e he0 he s, htot, ?_, hfold, ?_, ?_, ?_, ?_⟩
  · intro now
    rw [stopwatchPoll_paused s startTime now hp, htot]
  · rw [hfold]
    show elapsedSeconds (tN - e * nanosPerSecond) tResume = e
    rw [elapsedSeconds_since_rebase tN e tResume he0 hres0]
    have : (tResume - tN) / nanosPerSecond = 0 := by
      unfold nanosPerSecond at hres1 ⊢
      omega
    omega
  · rw [hfold, hsum]
    show stopwatchPoll (tN - e * nanosPerSecond, keyPressed Key.S s) t = _
    rw [stopwatchPoll_resumed s _ _ hp,
      elapsedSeconds_since_rebase tN e t he0 (by omega)]
  · unfold nanosPerSecond at hres1 ⊢
    omega
  · unfold nanosPerSecond at hres1 ⊢
    omega

/-- Witness of C3 (amended): 12 s stored, paused polls at 12.1 s, 12.2 s and
17 s, resume at 17.05 s: 12 s are computed at the resume; the poll at 17.9 s
shows `00:00:12`. -/
theorem paused_polls_preserve_elapsed_witness :
    elapsedSeconds
      ([12100000000, 12200000000, 17000000000].foldl stopwatchPoll
        (0, keyPressed Key.P (stopwatchStore 12 (keyPressed Key.S initState)))).1
      17050000000 = 12 ∧
    (stopwatchPoll
      (keyBetweenPolls Key.S
        ([12100000000, 12200000000, 17000000000].foldl stopwatchPoll
          (0, keyPressed Key.P (stopwatchStore 12 (keyPressed Key.S initState)))))
      17900000000).2.stopwatchStr = "00:00:12" :=
  have h := paused_polls_preserve_elapsed
    (keyPressed Key.P (stopwatchStore 12 (keyPressed Key.S initState))) 0 12
    (by decide) (by decide) (by decide) (by decide) (by decide) (by decide)
    [12100000000, 12200000000] 17000000000 17050000000 17900000000
    (by decide) (by decide) (by decide)
  ⟨h.2.2.2.2.1, (congrArg (fun w => w.2.stopwatchStr) h.2.2.2.2.2.1).trans (by decide)⟩

/-- C3, counterexample, in three runs of the system with the thread started at
instant 0. (a) The running poll at `2^31` s stores the counters `(596523, 14, 8)`
of `e = 2^31`; the `int` sum of the paused branch is then `-2^31`, not `e`, the
paused poll 100 ms later puts the reference instant `2^31` s after itself, and
the elapsed seconds computed 50 ms after that poll are `-2147483647`. (b) With
12 s stored and paused polls every 100 ms up to 17.0 s, a resume between 17.0 s
and 17.1 s and polls every 100 ms, the poll at 17.9 s shows `00:00:12` and the
poll at 18.0 s shows `00:00:13`: a second is added although, for a resume at
17.05 s, only 0.95 s of unpaused time has passed, whose whole seconds give 12.
(c) With the same last paused poll at 17.0 s (reference instant 5 s) and no
further poll before a resume at 18.5 s, the elapsed seconds computed at the
moment of resume are 13, not 12. -/
theorem paused_poll_overflow_and_resume_slack :
    ((run (initSystem 0)
        [Event.key Key.S, Event.stopwatch 2147483648000000000,
         Event.stopwatch 2147483648000000000]).shared.stopwatchHours = 2147483648 / 3600 ∧
      (run (initSystem 0)
        [Event.key Key.S, Event.stopwatch 2147483648000000000,
         Event.stopwatch 2147483648000000000]).shared.stopwatchMinutes
        = 2147483648 % 3600 / 60 ∧
      (run (initSystem 0)
        [Event.key Key.S, Event.stopwatch 2147483648000000000,
         Event.stopwatch 2147483648000000000]).shared.stopwatchSeconds = 2147483648 % 60 ∧
      totalSeconds (run (initSystem 0)
        [Event.key Key.S, Event.stopwatch 2147483648000000000,
         Event.stopwatch 2147483648000000000, Event.key Key.P]).shared = -2147483648 ∧
      ¬ (totalSeconds (run (initSystem 0)
        [Event.key Key.S, Event.stopwatch 2147483648000000000,
         Event.stopwatch 2147483648000000000, Event.key Key.P]).shared = 2147483648) ∧
      (run (initSystem 0)
        [Event.key Key.S, Event.stopwatch 2147483648000000000,
         Event.stopwatch 2147483648000000000, Event.key Key.P,
         Event.stopwatch 2147483648100000000,
         Event.stopwatch 2147483648100000000]).stopwatch.startTime
        = 2147483648100000000 + 2147483648 * nanosPerSecond ∧
      elapsedSeconds (run (initSystem 0)
        [Event.key Key.S, Event.stopwatch 2147483648000000000,
         Event.stopwatch 2147483648000000000, Event.key Key.P,
         Event.stopwatch 2147483648100000000,
         Event.stopwatch 2147483648100000000]).stopwatch.startTime 2147483648150000000
        = -2147483647) ∧
    ((run (initSystem 0)
        ([Event.key Key.S] ++ pollEvents 0 100000000 121 ++
         [Event.key Key.P] ++ pollEvents 12100000000 100000000 50 ++
         [Event.key Key.S] ++ pollEvents 17100000000 100000000 9)).shared.stopwatchStr
        = "00:00:12" ∧
      (run (initSystem 0)
        ([Event.key Key.S] ++ pollEvents 0 100000000 121 ++
         [Event.key Key.P] ++ pollEvents 12100000000 100000000 50 ++
         [Event.key Key.S] ++ pollEvents 17100000000 100000000 10)).shared.stopwatchStr
        = "00:00:13" ∧
      (run (initSystem 0)
        ([Event.key Key.S] ++ pollEvents 0 100000000 121 ++
         [Event.key Key.P] ++ pollEvents 12100000000 100000000 50 ++
         [Event.key Key.S] ++ pollEvents 17100000000 100000000 10)).shared.stopwatchSeconds
        = 13 ∧
      12 + (18000000000 - 17050000000) / nanosPerSecond = 12) ∧
    ((run (initSystem 0)
        ([Event.key Key.S] ++ pollEvents 0 100000000 121 ++
         [Event.key Key.P] ++ pollEvents 12100000000 100000000 50)).shared.stopwatchSeconds
        = 12 ∧
      (run (initSystem 0)
        ([Event.key Key.S] ++ pollEvents 0 100000000 121 ++
         [Event.key Key.P] ++ pollEvents 12100000000 100000000 50)).stopwatch.startTime
        = 17000000000 - 12 * nanosPerSecond ∧
      elapsedSeconds (run (initSystem 0)
        ([Event.key Key.S] ++ pollEvents 0 100000000 121 ++
         [Event.key Key.P] ++ pollEvents 12100000000 100000000 50)).stopwatch.startTime
        18500000000 = 13) := by
  set_option maxRecDepth 100000 in
  decide

/-! ## Alarm evaluator: parsing one read -/

/-- C4, counterexample. A payload of ten bytes, the eight characters
`12:34:56`, a zero byte and `X`, is registered as the alarm `12:34:56`; so is a
payload of nine bytes that ends in a zero byte. -/
theorem receiveAlarm_accepts_long_payload_with_zero_byte :
    ("12:34:56".data ++ [Char.ofNat 0, 'X']).length = 10 ∧
    receiveAlarm [] ("12:34:56".data ++ [Char.ofNat 0, 'X']) = ["12:34:56"] ∧
    receiveAlarm ["07:00:00"] ("12:34:56".data ++ [Char.ofNat 0])
      = ["07:00:00", "12:34:56"] := by
  decide

/-- A payload without a zero byte whose length is not 8 is discarded. -/
theorem receiveAlarm_discards_without_zero_byte (v : List String) (payload : List Char)
    (hz : ∀ c ∈ payload, c ≠ Char.ofNat 0) (hlen : payload.length ≠ 8) :
    receiveAlarm v payload = v := by
  have h : payload.takeWhile (fun c => decide (c ≠ Char.ofNat 0)) = payload := by
    rw [List.takeWhile_eq_self_iff]
    intro c hc
    simpa using hz c hc
  unfold receiveAlarm newAlarmOf
  simp only [h, String.length]
  split_ifs <;> rfl

/-- The parsing step registers the payload exactly when 8 bytes stand before
its first zero byte (or its end). -/
theorem receiveAlarm_eq (v : List String) (payload : List Char) :
    receiveAlarm v payload
      = if (payload.takeWhile (fun c => c ≠ Char.ofNat 0)).length = 8
        then v ++ [newAlarmOf payload] else v := by
  unfold receiveAlarm newAlarmOf
  simp only [String.length]
  by_cases h8 : (payload.takeWhile (fun c => decide (c ≠ Char.ofNat 0))).length = 8
  · have hle := (List.takeWhile_prefix (fun c => decide (c ≠ Char.ofNat 0))
      (l := payload)).length_le
    have hpos : payload.length > 0 := by omega
    simp [h8, hpos]
  · simp only [h8, if_false]
    split_ifs <;> rfl

/-- C4 (amended). For every byte payload returned by one read whose length is
not 8: if it holds no zero byte (as every payload the parent writes), or if the
number of bytes before its first zero byte is not 8, the parsing step leaves the
list of armed alarms unchanged, payloads longer than 8 bytes included. The
remaining payloads, with exactly 8 bytes before a zero byte, are registered:
the step registers a payload exactly when 8 bytes stand before its first zero
byte or its end, and then appends those 8 bytes. -/
theorem receiveAlarm_discards_malformed (v : List String) (payload : List Char) :
    (payload.length ≠ 8 → (∀ c ∈ payload, c ≠ Char.ofNat 0) → receiveAlarm v payload = v) ∧
    (payload.length ≠ 8 →
      (payload.takeWhile (fun c => c ≠ Char.ofNat 0)).length ≠ 8 →
      receiveAlarm v payload = v) ∧
    ((payload.takeWhile (fun c => c ≠ Char.ofNat 0)).length = 8 →
      receiveAlarm v payload = v ++ [String.mk (payload.take 8)]) ∧
    (receiveAlarm v payload ≠ v ↔
      (payload.takeWhile (fun c => c ≠ Char.ofNat 0)).length = 8) := by
  refine ⟨?_, ?_, ?_, ?_⟩
  · intro hlen hz
    exact receiveAlarm_discards_without_zero_byte v payload hz hlen
  · intro _ h8
    rw [receiveAlarm_eq, if_neg h8]
  · intro h8
    rw [receiveAlarm_eq, if_pos h8]
    have htake : payload.takeWhile (fun c => decide (c ≠ Char.ofNat 0)) = payload.take 8 := by
      have hpre := List.takeWhile_prefix (fun c => decide (c ≠ Char.ofNat 0)) (l := payload)
      have := List.prefix_iff_eq_take.mp hpre
      rw [h8] at this
      exact this
    simp only [newAlarmOf, htake]
  · rw [receiveAlarm_eq]
    by_cases h8 : (payload.takeWhile (fun c => decide (c ≠ Char.ofNat 0))).length = 8
    · simp [h8]
    · simp [h8]

/-- Witness of C4 (amended): two arm requests coalesced into one read of 16
bytes and a read of 7 bytes are discarded; 8 bytes are registered. -/
theorem receiveAlarm_discards_malformed_witness :
    receiveAlarm ["07:00:00"] "12:34:5612:35:06".data = ["07:00:00"] ∧
    receiveAlarm ["07:00:00"] "12:34:5".data = ["07:00:00"] ∧
    receiveAlarm ["07:00:00"] "12:34:56".data = ["07:00:00", "12:34:56"] :=
  ⟨(receiveAlarm_discards_malformed ["07:00:00"] "12:34:5612:35:06".data).1
      (by decide) (by decide),
   (receiveAlarm_discards_malformed ["07:00:00"] "12:34:5".data).2.1 (by decide) (by decide),
   (receiveAlarm_discards_malformed ["07:00:00"] "12:34:56".data).2.2.1 (by decide)⟩

/-! ## Alarm evaluator: the matching loop -/

/-- The matching loop started at index `pre.length` of `pre ++ rest` removes the
first entry of `rest` equal to the current time, if there is one. -/
theorem checkFrom_eq (cur : String) (rest : List String) : ∀ pre : List String,
    checkFrom cur (pre ++ rest) rest pre.length
      = if cur ∈ rest then (['A'], pre ++ rest.erase cur) else ([], pre ++ rest) := by
  induction rest with
  | nil => intro pre; simp [checkFrom]
  | cons a rest ih =>
    intro pre
    by_cases h : a = cur
    · subst h
      simp [checkFrom, List.eraseIdx_append_of_length_le]
    · have h2 : ¬ cur = a := fun e => h e.symm
      have h3 := ih (pre ++ [a])
      simp only [List.append_assoc, List.singleton_append, List.length_append,
        List.length_singleton] at h3
      simp only [checkFrom, h, if_false, h3, List.mem_cons, h2, false_or]
      have h4 : (a :: rest).erase cur = a :: rest.erase cur := by
        rw [List.erase_cons_tail]
        simpa using h
      rw [h4]

/-- The matching loop removes the first entry equal to the current time and
writes one byte, or does nothing. -/
theorem checkAlarms_eq (cur : String) (v : List String) :
    checkAlarms cur v = if cur ∈ v then (['A'], v.erase cur) else ([], v) := by
  have h := checkFrom_eq cur v []
  simpa [checkAlarms] using h

/-- C5. One evaluation cycle writes at most one byte. If some entry equals the
current-time string it writes exactly the byte `A` and removes exactly the first
such entry, all other entries (later equal ones included) keeping their order;
otherwise it writes nothing and leaves the list unchanged. A cycle is exactly
this matching loop on the list held after the parsing step, which is the list
held before when the read returns no byte. -/
theorem checkAlarms_first_match_only (v : List String) (cur : String) :
    (checkAlarms cur v).1.length ≤ 1 ∧
    (cur ∈ v → (checkAlarms cur v).1 = ['A'] ∧
      ∃ pre post : List String, v = pre ++ cur :: post ∧ cur ∉ pre ∧
        (checkAlarms cur v).2 = pre ++ post) ∧
    (cur ∉ v → checkAlarms cur v = ([], v)) ∧
    (∀ (payload : List Char) (hour min sec : Int),
      alarmCycle v payload hour min sec
        = checkAlarms (currentTimeString hour min sec) (receiveAlarm v payload)) ∧
    receiveAlarm v [] = v := by
  rw [checkAlarms_eq]
  refine ⟨?_, ?_, ?_, ?_, rfl⟩
  · split_ifs <;> simp
  · intro h
    obtain ⟨pre, post, h1, h2, h3⟩ := List.exists_erase_eq h
    simp only [h, if_true, true_and]
    exact ⟨pre, post, h2, h1, h3⟩
  · intro h
    simp [h]
  · intro payload hour min sec
    rfl

/-- Example for C5: of two entries equal to the current time only the first is
removed, and one byte is written. -/
theorem checkAlarms_first_match_only_witness :
    checkAlarms "07:00:00" ["06:30:00", "07:00:00", "08:15:00", "07:00:00"]
      = (['A'], ["06:30:00", "08:15:00", "07:00:00"]) ∧
    ∃ pre post : List String,
      ["06:30:00", "07:00:00", "08:15:00", "07:00:00"] = pre ++ "07:00:00" :: post ∧
      "07:00:00" ∉ pre ∧
      (checkAlarms "07:00:00" ["06:30:00", "07:00:00", "08:15:00", "07:00:00"]).2
        = pre ++ post :=
  ⟨by decide,
   ((checkAlarms_first_match_only ["06:30:00", "07:00:00", "08:15:00", "07:00:00"]
      "07:00:00").2.1 (by decide)).2⟩

/-! ## Alarm status in the parent -/

/-- The stopwatch worker does not touch the alarm fields. -/
theorem stopwatchIteration_alarm (a b : Bool) (t : Int) (w : Int × State) :
    (stopwatchIteration a b t w).2.alarmRinging = w.2.alarmRinging ∧
    (stopwatchIteration a b t w).2.alarmStatus = w.2.alarmStatus := by
  unfold stopwatchIteration
  split_ifs <;> simp [stopwatchRunningBranch, stopwatchStore]

/-- The timer worker does not touch the alarm fields. -/
theorem timerIteration_alarm (a b : Bool) (s : State) :
    (timerIteration a b s).alarmRinging = s.alarmRinging ∧
    (timerIteration a b s).alarmStatus = s.alarmStatus := by
  unfold timerIteration timerLockedUpdate
  split_ifs <;> simp

/-- A step other than `ArmAlarm` keeps a ringing alarm ringing, with its
status text. -/
theorem step_keeps_ringing (y : System) (e : Event)
    (he : ∀ hour min sec : Int, e ≠ Event.key (Key.A hour min sec))
    (hr : y.shared.alarmRinging = true ∧ y.shared.alarmStatus = "*** ALARM RINGING!!! ***") :
    (step y e).shared.alarmRinging = true ∧
    (step y e).shared.alarmStatus = "*** ALARM RINGING!!! ***" := by
  obtain ⟨hr1, hr2⟩ := hr
  cases e with
  | key k =>
    cases k with
    | A hour min sec => exact absurd rfl (he hour min sec)
    | S => simp only [step, keyPressed]; split_ifs <;> exact ⟨hr1, hr2⟩
    | P => simp only [step, keyPressed]; split_ifs <;> exact ⟨hr1, hr2⟩
    | _ => exact ⟨hr1, hr2⟩
  | closed => exact ⟨hr1, hr2⟩
  | drain =>
    simp only [step, drainPipe, drainStep]
    split
    · split_ifs
      · exact ⟨rfl, rfl⟩
      · exact ⟨hr1, hr2⟩
    · exact ⟨hr1, hr2⟩
  | clock hour min sec =>
    simp only [step, clockStep]
    split_ifs
    · exact ⟨hr1, hr2⟩
    · exact ⟨hr1, hr2⟩
  | stopwatch now =>
    simp only [step, stopwatchStep]
    split
    · split_ifs <;> exact ⟨hr1, hr2⟩
    · have h := stopwatchIteration_alarm y.stopwatch.swRunning y.stopwatch.swPaused now
        (y.stopwatch.startTime, y.shared)
      exact ⟨h.1.trans hr1, h.2.trans hr2⟩
    · exact ⟨hr1, hr2⟩
  | timer =>
    simp only [step, timerStep]
    split
    · split_ifs <;> exact ⟨hr1, hr2⟩
    · have h := timerIteration_alarm y.timer.tmRunning y.timer.tmPaused y.shared
      exact ⟨h.1.trans hr1, h.2.trans hr2⟩
    · exact ⟨hr1, hr2⟩
  | evaluator hour min sec => exact ⟨hr1, hr2⟩

/-- The flag alone also survives every step other than `ArmAlarm`. -/
theorem step_keeps_ringing_flag (y : System) (e : Event)
    (he : ∀ hour min sec : Int, e ≠ Event.key (Key.A hour min sec))
    (hr1 : y.shared.alarmRinging = true) :
    (step y e).shared.alarmRinging = true := by
  cases e with
  | key k =>
    cases k with
    | A hour min sec => exact absurd rfl (he hour min sec)
    | S => simp only [step, keyPressed]; split_ifs <;> exact hr1
    | P => simp only [step, keyPressed]; split_ifs <;> exact hr1
    | _ => exact hr1
  | closed => exact hr1
  | drain =>
    simp only [step, drainPipe, drainStep]
    split
    · split_ifs
      · rfl
      · exact hr1
    · exact hr1
  | clock hour min sec =>
    simp only [step, clockStep]
    split_ifs
    · exact hr1
    · exact hr1
  | stopwatch now =>
    simp only [step, stopwatchStep]
    split
    · split_ifs <;> exact hr1
    · exact (stopwatchIteration_alarm y.stopwatch.swRunning y.stopwatch.swPaused now
        (y.stopwatch.startTime, y.shared)).1.trans hr1
    · exact hr1
  | timer =>
    simp only [step, timerStep]
    split
    · split_ifs <;> exact hr1
    · exact (timerIteration_alarm y.timer.tmRunning y.timer.tmPaused y.shared).1.trans hr1
    · exact hr1
  | evaluator hour min sec => exact hr1

/-- The flag survives every sequence of steps without `ArmAlarm`. -/
theorem run_keeps_ringing_flag (es : List Event) : ∀ y : System,
    (∀ e ∈ es, ∀ hour min sec : Int, e ≠ Event.key (Key.A hour min sec)) →
    y.shared.alarmRinging = true → (run y es).shared.alarmRinging = true := by
  induction es with
  | nil => intro y _ hr; exact hr
  | cons e es ih =>
    intro y he hr
    have h1 := step_keeps_ringing_flag y e (he e (List.mem_cons_self e es)) hr
    exact ih (step y e) (fun e' he' => he e' (List.mem_cons_of_mem e he')) h1

/-- Flag and status text survive every sequence of steps without `ArmAlarm`. -/
theorem run_keeps_ringing (es : List Event) : ∀ y : System,
    (∀ e ∈ es, ∀ hour min sec : Int, e ≠ Event.key (Key.A hour min sec)) →
    (y.shared.alarmRinging = true ∧ y.shared.alarmStatus = "*** ALARM RINGING!!! ***") →
    ((run y es).shared.alarmRinging = true ∧
      (run y es).shared.alarmStatus = "*** ALARM RINGING!!! ***") := by
  induction es with
  | nil => intro y _ hr; exact hr
  | cons e es ih =>
    intro y he hr
    have h1 := step_keeps_ringing y e (he e (List.mem_cons_self e es)) hr
    exact ih (step y e) (fun e' he' => he e' (List.mem_cons_of_mem e he')) h1

/-- C6. A drain step that reads the byte `A` sets `alarmStatus` to
`*** ALARM RINGING!!! ***` and `alarmRinging` to true; a drain step that reads
no byte leaves the shared state unchanged; the same holds for the drain of the
pipe in the whole system. Once ringing, `alarmRinging` stays true (and the
ringing status text stays) across every sequence of steps without `ArmAlarm`:
drains, stopwatch and timer commands, worker steps, evaluator cycles. A step
that turns `alarmRinging` from true to false is an `ArmAlarm`, and `ArmAlarm`
sets the flag to false and the status to `Alarm set for: ` followed by the
formatted target time. -/
theorem ringing_persists_until_rearmed :
    (∀ s : State, (drainStep (some 'A') s).alarmStatus = "*** ALARM RINGING!!! ***" ∧
      (drainStep (some 'A') s).alarmRinging = true) ∧
    (∀ s : State, drainStep none s = s) ∧
    (∀ (y : System) (rest : List Char), y.pipeChildToParent = 'A' :: rest →
      (step y Event.drain).shared.alarmStatus = "*** ALARM RINGING!!! ***" ∧
      (step y Event.drain).shared.alarmRinging = true) ∧
    (∀ y : System, y.pipeChildToParent = [] → (step y Event.drain).shared = y.shared) ∧
    (∀ (y : System) (es : List Event),
      (∀ e ∈ es, ∀ hour min sec : Int, e ≠ Event.key (Key.A hour min sec)) →
      y.shared.alarmRinging = true → (run y es).shared.alarmRinging = true) ∧
    (∀ (y : System) (es : List Event),
      (∀ e ∈ es, ∀ hour min sec : Int, e ≠ Event.key (Key.A hour min sec)) →
      y.shared.alarmRinging = true →
      y.shared.alarmStatus = "*** ALARM RINGING!!! ***" →
      (run y es).shared.alarmStatus = "*** ALARM RINGING!!! ***") ∧
    (∀ (y : System) (e : Event), y.shared.alarmRinging = true →
      (step y e).shared.alarmRinging = false →
      ∃ hour min sec : Int, e = Event.key (Key.A hour min sec)) ∧
    (∀ (y : System) (hour min sec : Int),
      (step y (Event.key (Key.A hour min sec))).shared.alarmRinging = false ∧
      (step y (Event.key (Key.A hour min sec))).shared.alarmStatus
        = "Alarm set for: " ++ hhmmss hour min sec) := by
  refine ⟨fun s => ⟨rfl, rfl⟩, fun s => rfl, ?_, ?_, ?_, ?_, ?_, fun y hour min sec => ⟨rfl, rfl⟩⟩
  · intro y rest h
    simp [step, drainPipe, drainStep, h]
  · intro y h
    simp [step, drainPipe, drainStep, h]
  · intro y es he hr
    exact run_keeps_ringing_flag es y he hr
  · intro y es he hr hs
    exact (run_keeps_ringing es y he ⟨hr, hs⟩).2
  · intro y e hr hf
    by_contra hne
    have h := step_keeps_ringing_flag y e (fun hour min sec heq => hne ⟨hour, min, sec, heq⟩) hr
    rw [hf] at h
    exact Bool.noConfusion h

/-- Example for C6: an armed alarm rings after the evaluator matched it and the
parent drained the pipe, keeps ringing through other commands and worker steps,
and is reset by the next `ArmAlarm`. -/
theorem ringing_persists_until_rearmed_witness :
    (run (initSystem 0)
      [Event.key (Key.A 7 0 10), Event.evaluator 7 0 9, Event.drain, Event.evaluator 7 0 10,
       Event.drain]).shared.alarmRinging = true ∧
    (run (initSystem 0)
      [Event.key (Key.A 7 0 10), Event.evaluator 7 0 9, Event.drain]).shared.alarmRinging
      = false ∧
    (run (run (initSystem 0)
      [Event.key (Key.A 7 0 10), Event.evaluator 7 0 9, Event.drain, Event.evaluator 7 0 10,
       Event.drain])
      [Event.key Key.S, Event.drain, Event.key Key.T, Event.timer, Event.timer,
       Event.stopwatch 5, Event.key Key.R, Event.key Key.O]).shared.alarmRinging = true ∧
    (step (run (initSystem 0)
      [Event.key (Key.A 7 0 10), Event.evaluator 7 0 9, Event.drain, Event.evaluator 7 0 10,
       Event.drain]) (Event.key (Key.A 7 0 30))).shared.alarmStatus
      = "Alarm set for: 07:00:30" :=
  ⟨by decide, by decide,
   ringing_persists_until_rearmed.2.2.2.2.1 _
     [Event.key Key.S, Event.drain, Event.key Key.T, Event.timer, Event.timer,
       Event.stopwatch 5, Event.key Key.R, Event.key Key.O]
     (by intro e he hour min sec heq; subst heq; simp at he) (by decide),
   (ringing_persists_until_rearmed.2.2.2.2.2.2.2 _ 7 0 30).2⟩


/-! ## The two formatters of the alarm time -/

/-- C7. For every wall-clock time with hour in 0..23, minute in 0..59 and
second in 0..59 the stream formatter of the arm command and the `snprintf`
formatter of the evaluator give the same string; it has exactly 8 characters,
two decimal digits, a colon, two digits, a colon, two digits. The bytes the arm
command writes are this string, the evaluator's parsing step appends it to its
armed alarms, and it equals the evaluator's current-time string for a clock
reading in range exactly when that reading is the same hour, minute and
second. -/
theorem arm_and_evaluator_formats_agree (h m s : Int)
    (hh0 : 0 ≤ h) (hh1 : h ≤ 23) (hm0 : 0 ≤ m) (hm1 : m ≤ 59) (hs0 : 0 ≤ s) (hs1 : s ≤ 59) :
    alarmTimeString h m s = currentTimeString h m s ∧
    (alarmTimeString h m s).length = 8 ∧
    alarmTimeString h m s
      = String.mk [Nat.digitChar (h.toNat / 10), Nat.digitChar (h.toNat % 10), ':',
          Nat.digitChar (m.toNat / 10), Nat.digitChar (m.toNat % 10), ':',
          Nat.digitChar (s.toNat / 10), Nat.digitChar (s.toNat % 10)] ∧
    keyWrites (Key.A h m s) = (alarmTimeString h m s).data ∧
    (∀ v : List String,
      receiveAlarm v (keyWrites (Key.A h m s)) = v ++ [alarmTimeString h m s]) ∧
    (∀ h2 m2 s2 : Int, 0 ≤ h2 → h2 ≤ 23 → 0 ≤ m2 → m2 ≤ 59 → 0 ≤ s2 → s2 ≤ 59 →
      (alarmTimeString h m s = currentTimeString h2 m2 s2 ↔ h2 = h ∧ m2 = m ∧ s2 = s)) := by
  obtain ⟨a, rfl⟩ := Int.eq_ofNat_of_zero_le hh0
  obtain ⟨b, rfl⟩ := Int.eq_ofNat_of_zero_le hm0
  obtain ⟨c, rfl⟩ := Int.eq_ofNat_of_zero_le hs0
  have ha : a < 100 := by omega
  have hb : b < 100 := by omega
  have hc : c < 100 := by omega
  have hfmt := hhmmss_digits a b c ha hb hc
  have hcur := currentTimeString_digits a b c ha hb hc
  have hz : ∀ x : Nat, x < 10 → (Nat.digitChar x == Char.ofNat 0) = false := by
    intro x hx
    simpa using digitChar_ne_zero_byte x hx
  refine ⟨?_, ?_, ?_, rfl, ?_, ?_⟩
  · rw [alarmTimeString, hfmt, hcur]
  · rw [alarmTimeString, hfmt]
    rfl
  · rw [alarmTimeString, hfmt]
    simp only [Int.toNat_ofNat]
  · intro v
    have z1 := digitChar_ne_zero_byte (a / 10) (by omega)
    have z2 := digitChar_ne_zero_byte (a % 10) (by omega)
    have z3 := digitChar_ne_zero_byte (b / 10) (by omega)
    have z4 := digitChar_ne_zero_byte (b % 10) (by omega)
    have z5 := digitChar_ne_zero_byte (c / 10) (by omega)
    have z6 := digitChar_ne_zero_byte (c % 10) (by omega)
    have z7 : ':' ≠ Char.ofNat 0 := by decide
    simp only [keyWrites, alarmTimeString, hfmt, receiveAlarm, newAlarmOf]
    simp [List.takeWhile, z1, z2, z3, z4, z5, z6, z7, String.length]
  · intro h2 m2 s2 p0 p1 q0 q1 r0 r1
    obtain ⟨a2, rfl⟩ := Int.eq_ofNat_of_zero_le p0
    obtain ⟨b2, rfl⟩ := Int.eq_ofNat_of_zero_le q0
    obtain ⟨c2, rfl⟩ := Int.eq_ofNat_of_zero_le r0
    rw [alarmTimeString, hfmt,
      currentTimeString_digits a2 b2 c2 (by omega) (by omega) (by omega)]
    constructor
    · intro heq
      have hdata := congrArg String.data heq
      simp only [List.cons.injEq, and_true, true_and] at hdata
      obtain ⟨d1, d2, d3, d4, d5, d6⟩ := hdata
      have e1 := two_digits_injective a a2 ha (by omega) d1 d2
      have e2 := two_digits_injective b b2 hb (by omega) d3 d4
      have e3 := two_digits_injective c c2 hc (by omega) d5 d6
      subst e1 e2 e3
      exact ⟨rfl, rfl, rfl⟩
    · rintro ⟨e1, e2, e3⟩
      have e1 : a2 = a := by exact_mod_cast e1
      have e2 : b2 = b := by exact_mod_cast e2
      have e3 : c2 = c := by exact_mod_cast e3
      subst e1 e2 e3
      rfl

/-- Witness of C7 at 23:59:59 (and at 07:05:09 for the evaluator's clock). -/
theorem arm_and_evaluator_formats_agree_witness :
    alarmTimeString 23 59 59 = "23:59:59" ∧
    currentTimeString 23 59 59 = "23:59:59" ∧
    alarmTimeString 23 59 59 = currentTimeString 23 59 59 ∧
    receiveAlarm ["07:05:09"] (keyWrites (Key.A 23 59 59)) = ["07:05:09", "23:59:59"] ∧
    ¬ (alarmTimeString 23 59 59 = currentTimeString 7 5 9) :=
  have h := arm_and_evaluator_formats_agree 23 59 59 (by decide) (by decide) (by decide)
    (by decide) (by decide) (by decide)
  ⟨by decide, by decide, h.1, h.2.2.2.2.1 ["07:05:09"],
   fun heq => absurd
     ((h.2.2.2.2.2 7 5 9 (by decide) (by decide) (by decide) (by decide) (by decide)
       (by decide)).1 heq).1 (by decide)⟩

/-! ## Timer presets -/

/-- C8, counterexample. After `SetTimer(0, 30)` and 31 ticks the timer is
expired and shows `TIMER DONE!`; right after a new `SetTimer(0, 30)` the timer is
active with 30 seconds but the display still shows `TIMER DONE!`. -/
theorem preset_keeps_done_display :
    (timerTick^[31] (keyPressed Key.T initState)).timerRunning = false ∧
    (timerTick^[31] (keyPressed Key.T initState)).timerStr = "TIMER DONE!" ∧
    (keyPressed Key.T (timerTick^[31] (keyPressed Key.T initState))).timerRunning = true ∧
    (keyPressed Key.T (timerTick^[31] (keyPressed Key.T initState))).timerSeconds = 30 ∧
    (keyPressed Key.T (timerTick^[31] (keyPressed Key.T initState))).timerStr
      = "TIMER DONE!" := by
  decide

/-- C8 (amended). For every timer state and every preset command (`T` 0:30,
`Num1` 1:00, `Num2` 2:00, `Num3` 5:00) the state right after the command holds
exactly the preset minutes and seconds, has `timerRunning = true` and
`timerPaused = false`, and is otherwise unchanged: the command does not write
the display, which keeps its text (after an expiry, `TIMER DONE!`) until the
next tick of the timer worker replaces it by the `MM:SS` of the preset less one
second, with the timer still active. -/
theorem preset_overwrites_countdown (s : State) (k : Key) (m sec : Int)
    (hk : (k, m, sec) ∈
      [(Key.T, (0 : Int), (30 : Int)), (Key.Num1, 1, 0), (Key.Num2, 2, 0), (Key.Num3, 5, 0)]) :
    keyPressed k s = { s with timerMinutes := m, timerSeconds := sec, timerRunning := true,
                              timerPaused := false } ∧
    (keyPressed k s).timerMinutes = m ∧ (keyPressed k s).timerSeconds = sec ∧
    (keyPressed k s).timerRunning = true ∧ (keyPressed k s).timerPaused = false ∧
    (keyPressed k s).timerStr = s.timerStr ∧
    (timerTick (keyPressed k s)).timerStr
      = mmss ((60 * m + sec - 1) / 60) ((60 * m + sec - 1) % 60) ∧
    (timerTick (keyPressed k s)).timerStr ≠ "TIMER DONE!" ∧
    (timerTick (keyPressed k s)).timerRunning = true := by
  simp only [List.mem_cons, Prod.mk.injEq, List.mem_singleton, List.not_mem_nil, or_false] at hk
  rcases hk with ⟨rfl, rfl, rfl⟩ | ⟨rfl, rfl, rfl⟩ | ⟨rfl, rfl, rfl⟩ | ⟨rfl, rfl, rfl⟩ <;>
    refine ⟨rfl, rfl, rfl, rfl, rfl, rfl, ?_, ?_, ?_⟩ <;>
    simp [keyPressed, setTimer, timerTick, timerIteration, timerLockedUpdate] <;> decide

/-- Witness of C8 (amended): the preset `T` on the expired timer. -/
theorem preset_overwrites_countdown_witness :
    (keyPressed Key.T (timerTick^[31] (keyPressed Key.T initState))).timerSeconds = 30 ∧
    (keyPressed Key.T (timerTick^[31] (keyPressed Key.T initState))).timerStr
      = (timerTick^[31] (keyPressed Key.T initState)).timerStr ∧
    (timerTick (keyPressed Key.T (timerTick^[31] (keyPressed Key.T initState)))).timerStr
      = "00:29" :=
  have h := preset_overwrites_countdown (timerTick^[31] (keyPressed Key.T initState))
    Key.T 0 30 (by decide)
  ⟨h.2.2.1, h.2.2.2.2.2.1, h.2.2.2.2.2.2.1⟩

/-! ## Stopwatch reset -/

/-- C9. From every stopwatch state the `ResetStopwatch` command yields the
display `00:00:00`, the three counters at zero, `stopwatchRunning = false` and
`stopwatchPaused = false`, in one update that touches nothing else. -/
theorem reset_stopwatch_from_any_state (s : State) :
    (keyPressed Key.R s).stopwatchStr = "00:00:00" ∧
    (keyPressed Key.R s).stopwatchHours = 0 ∧
    (keyPressed Key.R s).stopwatchMinutes = 0 ∧
    (keyPressed Key.R s).stopwatchSeconds = 0 ∧
    (keyPressed Key.R s).stopwatchRunning = false ∧
    (keyPressed Key.R s).stopwatchPaused = false ∧
    keyPressed Key.R s
      = { s with stopwatchRunning := false, stopwatchPaused := false, stopwatchHours := 0,
                 stopwatchMinutes := 0, stopwatchSeconds := 0, stopwatchStr := "00:00:00" } ∧
    (∀ y : System, (step y (Event.key Key.R)).shared = keyPressed Key.R y.shared) :=
  ⟨rfl, rfl, rfl, rfl, rfl, rfl, rfl, fun _ => rfl⟩

/-! ## Control flags -/

/-- The invariant of the control flags kept by every step. -/
theorem step_keeps_flag_invariant (y : System) (e : Event)
    (h : (y.shared.stopwatchPaused = true → y.shared.stopwatchRunning = true) ∧
      y.shared.timerPaused = false) :
    ((step y e).shared.stopwatchPaused = true → (step y e).shared.stopwatchRunning = true) ∧
      (step y e).shared.timerPaused = false := by
  obtain ⟨h1, h2⟩ := h
  cases e with
  | key k =>
    cases k <;> simp only [step, keyPressed, setTimer] <;> (try split_ifs) <;>
      simp_all
  | closed => exact ⟨h1, h2⟩
  | drain =>
    simp only [step, drainPipe, drainStep]
    split
    · split_ifs <;> exact ⟨h1, h2⟩
    · exact ⟨h1, h2⟩
  | clock hour min sec =>
    simp only [step, clockStep]
    split_ifs <;> exact ⟨h1, h2⟩
  | stopwatch now =>
    simp only [step, stopwatchStep]
    split
    · split_ifs <;> exact ⟨h1, h2⟩
    · simp only [stopwatchIteration]
      split_ifs <;> exact ⟨h1, h2⟩
    · exact ⟨h1, h2⟩
  | timer =>
    simp only [step, timerStep]
    split
    · split_ifs <;> exact ⟨h1, h2⟩
    · simp only [timerIteration, timerLockedUpdate]
      split_ifs <;> exact ⟨h1, h2⟩
    · exact ⟨h1, h2⟩
  | evaluator hour min sec => exact ⟨h1, h2⟩

/-- The invariant of the control flags kept by every sequence of steps. -/
theorem run_keeps_flag_invariant (es : List Event) : ∀ y : System,
    ((y.shared.stopwatchPaused = true → y.shared.stopwatchRunning = true) ∧
      y.shared.timerPaused = false) →
    (((run y es).shared.stopwatchPaused = true → (run y es).shared.stopwatchRunning = true) ∧
      (run y es).shared.timerPaused = false) := by
  induction es with
  | nil => intro y h; exact h
  | cons e es ih => intro y h; exact ih (step y e) (step_keeps_flag_invariant y e h)

/-- C10. In every state reached from the initial state by a finite sequence of
steps (key commands, window close, drains, worker steps of the clock, stopwatch
and timer with the expiry, evaluator cycles), `stopwatchPaused` implies
`stopwatchRunning` and `timerPaused` implies `timerRunning` (`timerPaused` is in
fact never true). `PauseStopwatch` on a stopwatch that is not running changes
nothing. -/
theorem paused_implies_running :
    (∀ (t0 : Int) (es : List Event),
      ((run (initSystem t0) es).shared.stopwatchPaused = true →
        (run (initSystem t0) es).shared.stopwatchRunning = true) ∧
      ((run (initSystem t0) es).shared.timerPaused = true →
        (run (initSystem t0) es).shared.timerRunning = true) ∧
      (run (initSystem t0) es).shared.timerPaused = false) ∧
    (∀ s : State, s.stopwatchRunning = false → keyPressed Key.P s = s) ∧
    (∀ y : System, y.shared.stopwatchRunning = false → step y (Event.key Key.P) = y) := by
  refine ⟨?_, ?_, ?_⟩
  · intro t0 es
    have h := run_keeps_flag_invariant es (initSystem t0)
      ⟨fun h => Bool.noConfusion h, rfl⟩
    refine ⟨h.1, ?_, h.2⟩
    intro hp
    rw [h.2] at hp
    exact Bool.noConfusion hp
  · intro s hs
    simp [keyPressed, hs]
  · intro y hs
    simp [step, keyPressed, keyWrites, hs]

/-- Example for C10: a run with pause, expiry and cancel, and the pause key on
a stopped stopwatch. -/
theorem paused_implies_running_witness :
    (run (initSystem 0)
      [Event.key Key.S, Event.key Key.P, Event.key Key.T, Event.timer, Event.timer]
      ).shared.stopwatchPaused = true ∧
    (run (initSystem 0)
      [Event.key Key.S, Event.key Key.P, Event.key Key.T, Event.timer, Event.timer]
      ).shared.stopwatchRunning = true ∧
    step (initSystem 0) (Event.key Key.P) = initSystem 0 :=
  ⟨by decide,
   (paused_implies_running.1 0
      [Event.key Key.S, Event.key Key.P, Event.key Key.T, Event.timer, Event.timer]).1
     (by decide),
   paused_implies_running.2.2 (initSystem 0) (by decide)⟩

/-! ## Lock order -/

/-- Every key handler, the clock and stopwatch iterations, the IPC check and the
display reads nest locks only as control then stopwatch or control then timer. -/
theorem nested_only_control_then_data (p : CodePath)
    (hp : ∀ (tmRunning tmPaused : Bool) (s : State),
      p ≠ CodePath.timerIteration tmRunning tmPaused s) :
    ∀ q ∈ nestedAcquisitions [] (locksOf p),
      q = (Mutex.controlMutex, Mutex.stopwatchMutex) ∨
      q = (Mutex.controlMutex, Mutex.timerMutex) := by
  cases p with
  | clockIteration => intro q hq; simp [locksOf, clockLocks, nestedAcquisitions] at hq
  | stopwatchIteration a b =>
    intro q hq
    cases a <;> cases b <;> simp [locksOf, stopwatchLocks, nestedAcquisitions] at hq
  | timerIteration a b s => exact absurd rfl (hp a b s)
  | keyHandler k =>
    intro q hq
    cases k <;> simp [locksOf, keyLocks, nestedAcquisitions] at hq <;> simp [hq]
  | ipcCheck r =>
    intro q hq
    cases r with
    | none => simp [locksOf, drainLocks, nestedAcquisitions] at hq
    | some c =>
      by_cases hc : c = 'A' <;> simp [locksOf, drainLocks, nestedAcquisitions, hc] at hq
  | displayRead => intro q hq; simp [locksOf, displayLocks, nestedAcquisitions] at hq

/-- A timer iteration that does not reach the expiry nests no lock. -/
theorem timer_decrement_nests_no_lock (tmRunning tmPaused : Bool) (s : State)
    (h : tmRunning = false ∨ tmPaused = true ∨ 0 < s.timerSeconds ∨ 0 < s.timerMinutes) :
    nestedAcquisitions [] (timerLocks tmRunning tmPaused s) = [] := by
  unfold timerLocks timerLockedUpdateLocks
  by_cases h1 : (tmRunning && !tmPaused) = true
  · have h2 : 0 < s.timerSeconds ∨ 0 < s.timerMinutes := by
      rcases h with h | h | h | h
      · simp [h] at h1
      · simp [h] at h1
      · exact Or.inl h
      · exact Or.inr h
    by_cases h3 : s.timerSeconds > 0
    · simp [h1, h3, nestedAcquisitions]
    · have h4 : s.timerMinutes > 0 := by
        rcases h2 with h2 | h2
        · exact absurd h2 h3
        · exact h2
      simp [h1, h3, h4, nestedAcquisitions]
  · simp [h1, nestedAcquisitions]

/-- C11, the code at the failing input. In the iteration of `timerThreadFunc`
that expires the timer (flags read as running and unpaused, countdown at
`00:00`, as after `SetTimer(0, 30)` and 30 ticks) the only nested acquisition is
`controlMutex` taken while `timerMutex` is held: data before control, a third
nesting besides reset-stopwatch and timer set/cancel, which nest control then
data. With the main thread in the handler of `T`, the schedule worker, worker,
worker, main reaches a state in which the worker holds `timerMutex` and waits
for `controlMutex` while the main thread holds `controlMutex` and waits for
`timerMutex`: neither can run. -/
theorem timer_expiry_takes_control_inside_timer_lock :
    (∀ s : State, s.timerSeconds ≤ 0 → s.timerMinutes ≤ 0 →
      nestedAcquisitions [] (locksOf (CodePath.timerIteration true false s))
        = [(Mutex.timerMutex, Mutex.controlMutex)]) ∧
    timerLocks true false (timerTick^[30] (setTimer 0 30 initState))
      = [LockOp.acquire Mutex.controlMutex, LockOp.release Mutex.controlMutex,
         LockOp.acquire Mutex.timerMutex, LockOp.acquire Mutex.controlMutex,
         LockOp.release Mutex.controlMutex, LockOp.release Mutex.timerMutex] ∧
    (nestedAcquisitions []
      (locksOf (CodePath.timerIteration true false
        (timerTick^[30] (setTimer 0 30 initState))))).any controlInsideData = true ∧
    nestedAcquisitions [] (locksOf (CodePath.keyHandler Key.R))
      = [(Mutex.controlMutex, Mutex.stopwatchMutex)] ∧
    nestedAcquisitions [] (locksOf (CodePath.keyHandler Key.T))
      = [(Mutex.controlMutex, Mutex.timerMutex)] ∧
    nestedAcquisitions [] (locksOf (CodePath.keyHandler Key.O))
      = [(Mutex.controlMutex, Mutex.timerMutex)] ∧
    lockRun
      { workerRest := timerLocks true false (timerTick^[30] (setTimer 0 30 initState)),
        workerHeld := [], mainRest := keyLocks Key.T, mainHeld := [] }
      [true, true, true, false]
      = { workerRest := [LockOp.acquire Mutex.controlMutex, LockOp.release Mutex.controlMutex,
            LockOp.release Mutex.timerMutex],
          workerHeld := [Mutex.timerMutex],
          mainRest := [LockOp.acquire Mutex.timerMutex, LockOp.release Mutex.timerMutex,
            LockOp.release Mutex.controlMutex],
          mainHeld := [Mutex.controlMutex] } ∧
    deadlocked (lockRun
      { workerRest := timerLocks true false (timerTick^[30] (setTimer 0 30 initState)),
        workerHeld := [], mainRest := keyLocks Key.T, mainHeld := [] }
      [true, true, true, false]) = true := by
  refine ⟨?_, by decide, by decide, by decide, by decide, by decide, by decide, by decide⟩
  intro s h1 h2
  have h3 : ¬ s.timerSeconds > 0 := by omega
  have h4 : ¬ s.timerMinutes > 0 := by omega
  simp [locksOf, timerLocks, timerLockedUpdateLocks, h3, h4, nestedAcquisitions]

end TimeSystem
